import Mathlib

/-!
Shallow embedding of `pkg/validation/validate_cluster.go` (kops cluster
validation): the data model, `validateNodes`, `collectPodFailures`,
`hasPlaceHolderIP`, `NewClusterValidator` and `Validate`, together with
theorems settling the specification claims.

Go maps are embedded as association lists carrying an explicit iteration
order; map assignment is `mapInsert` (unique keys, newest entry first) and
map indexing is `List.lookup` with the Go zero-value default where the
source relies on it.  A Go nil-pointer dereference is embedded as `none`
propagating through `Option` (the function "panics").  Fallible external
collaborators (DNS resolution, node list, cloud inventory, pod stream) are
inputs of type `Except String _`.
-/

namespace Validation

set_option maxRecDepth 100000

/-- Go map assignment `m[k] = v`: the new binding shadows (replaces) any
previous binding of `k`; keys stay pairwise distinct. -/
def mapInsert {α : Type} (m : List (String × α)) (k : String) (v : α) :
    List (String × α) :=
  (k, v) :: m.filter (fun p => !(p.1 == k))

/-- Modelled from the spec: a DesiredGroup (kops `InstanceGroup`, defined
outside the provided sources) is a named group with a role; `name` is
`ObjectMeta.Name` and `role` is `Spec.Role` (a string-typed enum). -/
structure InstanceGroup where
  name : String
  role : String
deriving DecidableEq, Repr

/-- Modelled from the spec: the kops API constant
`InstanceGroupRoleBastion` (not in the provided sources). -/
def InstanceGroupRoleBastion : String := "Bastion"

/-- Modelled from the spec: `InstanceGroupRole.ToLowerString` (kops API
package, not in the provided sources); spec 4.3: the node role is derived
from the DesiredGroup role, lower-cased, with the control-plane and
api-server roles rendering as "control-plane" and "apiserver".  The spec
fixes a closed role enum (control-plane, api-server, worker/node,
bastion), so the lower-casing is spelled out case by case; a value
outside the enum passes through unchanged. -/
def roleToLowerString (role : String) : String :=
  if role == "ControlPlane" then "control-plane"
  else if role == "APIServer" then "apiserver"
  else if role == "Node" then "node"
  else if role == "Bastion" then "bastion"
  else role

/-- Role string after the empty-role default of `validateNodes`
(`if role == "" { role = "node" }`). -/
def effectiveRole (role : String) : String :=
  let role0 := roleToLowerString role
  if role0 == "" then "node" else role0

/-- Modelled from the spec: a node condition (`v1.NodeCondition`, not in
the provided sources): a condition type and a status string. -/
structure NodeCondition where
  condType : String
  status : String
deriving DecidableEq, Repr

/-- Modelled from the spec: an orchestrator node (`v1.Node`, not in the
provided sources), flattened to the fields the validator reads: name,
labels, status addresses and status conditions. -/
structure Node where
  name : String
  labels : List (String × String)
  addresses : List String
  conditions : List NodeCondition
deriving DecidableEq, Repr

/-- Modelled from the spec: `isNodeReady` (defined outside the provided
sources); spec 4.3: readiness is true iff the node carries a Ready
condition with status True. -/
def isNodeReady (node : Node) : Bool :=
  node.conditions.any fun c => c.condType == "Ready" && c.status == "True"

/-- Modelled from the spec: `getNodeReadyStatus` (defined outside the
provided sources): the raw status of the node's Ready condition. -/
def getNodeReadyStatus (node : Node) : String :=
  match node.conditions.find? (fun c => c.condType == "Ready") with
  | some c => c.status
  | none => ""

/-- `v1.LabelTopologyZone`. -/
def labelTopologyZone : String := "topology.kubernetes.io/zone"

/-- `v1.LabelHostname`. -/
def labelHostname : String := "kubernetes.io/hostname"

/-- The control-plane node-role label key checked by
`collectPodFailures`. -/
def controlPlaneLabel : String := "node-role.kubernetes.io/control-plane"

/-- Go map read `labels[key]` with the string zero value for a missing
key. -/
def lookupLabel (labels : List (String × String)) (key : String) : String :=
  match labels.lookup key with
  | some v => v
  | none => ""

/-- Modelled from the spec: `cloudinstances.CloudInstanceStatusDetached`
(not in the provided sources). -/
def CloudInstanceStatusDetached : String := "Detached"

/-- Modelled from the spec: `cloudinstances.WarmPool` member state (not in
the provided sources). -/
def WarmPool : String := "WarmPool"

/-- Modelled from the spec: an ObservedMember
(`cloudinstances.CloudInstance`, not in the provided sources): identity,
lifecycle status, pool state and the optional linked node. -/
structure CloudInstance where
  ID : String
  Status : String
  State : String
  Node : Option Node
deriving DecidableEq, Repr

/-- Modelled from the spec: an ObservedGroup
(`cloudinstances.CloudInstanceGroup`, not in the provided sources): the
(nil-able) link to its DesiredGroup, the Ready and NeedUpdate member
lists and the target size. -/
structure CloudInstanceGroup where
  InstanceGroup : Option InstanceGroup
  Ready : List CloudInstance
  NeedUpdate : List CloudInstance
  TargetSize : Int
deriving DecidableEq, Repr

/-- `ValidationError` from `validate_cluster.go`. -/
structure ValidationError where
  Kind : String
  Name : String
  Message : String
  InstanceGroup : Option InstanceGroup
deriving DecidableEq, Repr

/-- `ValidationNode` from `validate_cluster.go`. -/
structure ValidationNode where
  Name : String
  Zone : String
  Role : String
  Hostname : String
  Status : String
deriving DecidableEq, Repr

/-- `ValidationCluster` from `validate_cluster.go`: the report, an
append-only failure list plus the classified node list. -/
structure ValidationCluster where
  Failures : List ValidationError := []
  Nodes : List ValidationNode := []
deriving DecidableEq, Repr

/-- `(*ValidationCluster).addError`. -/
def ValidationCluster.addError (v : ValidationCluster)
    (failure : ValidationError) : ValidationCluster :=
  { v with Failures := v.Failures ++ [failure] }

/-- Go `%q` on a plain name. -/
def goQuote (s : String) : String := "\"" ++ s ++ "\""

/-- Count of members whose lifecycle status is not detached (`numNodes`
in `validateNodes`). -/
def notDetachedCount (members : List CloudInstance) : Nat :=
  (members.filter (fun m => !(m.Status == CloudInstanceStatusDetached))).length

/-- The mutable state threaded through `validateNodes`: the report under
construction, the `groupsSeen` set, the `readyNodes` list and the
`nodeInstanceGroupMapping` map. -/
structure VNState where
  vc : ValidationCluster
  groupsSeen : List String
  readyNodes : List Node
  nodeInstanceGroupMapping : List (String × InstanceGroup)
deriving DecidableEq, Repr

/-- The per-member body of the inner loop of `validateNodes`
(`validate_cluster.go` lines 340-404). -/
def processMember (cloudGroupIG : InstanceGroup) (st : VNState)
    (member : CloudInstance) : VNState :=
  match member.Node with
  | none =>
    let nodeExpectedToJoin :=
      !(cloudGroupIG.role == InstanceGroupRoleBastion) &&
      !(member.State == WarmPool) &&
      !(member.Status == CloudInstanceStatusDetached)
    if nodeExpectedToJoin then
      let err : ValidationError :=
        { Kind := "Machine", Name := member.ID,
          Message := "machine " ++ goQuote member.ID ++
            " has not yet joined cluster",
          InstanceGroup := some cloudGroupIG }
      { st with vc := st.vc.addError err }
    else st
  | some node =>
    let st := { st with nodeInstanceGroupMapping :=
        (node.name, cloudGroupIG) :: st.nodeInstanceGroupMapping }
    let role := effectiveRole cloudGroupIG.role
    let n : ValidationNode :=
      { Name := node.name,
        Zone := lookupLabel node.labels labelTopologyZone,
        Role := role,
        Hostname := lookupLabel node.labels labelHostname,
        Status := getNodeReadyStatus node }
    let ready := isNodeReady node
    let st := if ready then { st with readyNodes := st.readyNodes ++ [node] }
      else st
    if role == "control-plane" || role == "apiserver" || role == "node" then
      let err : ValidationError :=
        { Kind := "Node", Name := node.name,
          Message := "node " ++ goQuote node.name ++ " of role " ++
            goQuote role ++ " is not ready",
          InstanceGroup := some cloudGroupIG }
      let st := if !ready then { st with vc := st.vc.addError err } else st
      { st with vc := { st.vc with Nodes := st.vc.Nodes ++ [n] } }
    else
      st

/-- The per-cloud-group body of the outer loop of `validateNodes`
(`validate_cluster.go` lines 312-405).  A group whose `InstanceGroup`
link is nil passes the scope-predicate guard (which requires a non-nil
link to skip) and is then dereferenced at `groupsSeen[...]`; that nil
dereference panics, embedded as `none`. -/
def processGroup (shouldValidateInstanceGroup : InstanceGroup → Bool)
    (st : VNState) (cloudGroup : CloudInstanceGroup) : Option VNState :=
  match cloudGroup.InstanceGroup with
  | some ig =>
    if !shouldValidateInstanceGroup ig then some st
    else
      let allMembers := cloudGroup.Ready ++ cloudGroup.NeedUpdate
      let st := { st with groupsSeen := ig.name :: st.groupsSeen }
      let numNodes := notDetachedCount allMembers
      let err : ValidationError :=
        { Kind := "InstanceGroup", Name := ig.name,
          Message := "InstanceGroup " ++ goQuote ig.name ++
            " did not have enough nodes " ++ toString numNodes ++
            " vs " ++ toString cloudGroup.TargetSize,
          InstanceGroup := some ig }
      let st :=
        if (numNodes : Int) < cloudGroup.TargetSize then
          { st with vc := st.vc.addError err }
        else st
      some (allMembers.foldl (processMember ig) st)
  | none => none

/-- The instance-group failure recorded by the final sweep of
`validateNodes` for an in-scope DesiredGroup missing from the cloud
provider. -/
def missingGroupError (ig : InstanceGroup) : ValidationError :=
  { Kind := "InstanceGroup", Name := ig.name,
    Message := "InstanceGroup " ++ goQuote ig.name ++
      " is missing from the cloud provider",
    InstanceGroup := some ig }

/-- The final sweep of `validateNodes` (lines 407-420): every in-scope
DesiredGroup not seen among the cloud groups yields an instance-group
failure. -/
def missingGroupsSweep (shouldValidateInstanceGroup : InstanceGroup → Bool)
    (groups : List InstanceGroup) (st : VNState) : VNState :=
  groups.foldl
    (fun st ig =>
      if !shouldValidateInstanceGroup ig then st
      else if !(st.groupsSeen.contains ig.name) then
        { st with vc := st.vc.addError (missingGroupError ig) }
      else st)
    st

/-- `(*ValidationCluster).validateNodes`.  The cloud-group map is taken in
its iteration order; the result is `none` when the loop panics on a nil
`InstanceGroup` link. -/
def validateNodes (v : ValidationCluster)
    (cloudGroups : List CloudInstanceGroup) (groups : List InstanceGroup)
    (shouldValidateInstanceGroup : InstanceGroup → Bool) : Option VNState :=
  match cloudGroups.foldlM (processGroup shouldValidateInstanceGroup)
      ({ vc := v, groupsSeen := [], readyNodes := [],
         nodeInstanceGroupMapping := [] } : VNState) with
  | none => none
  | some st => some (missingGroupsSweep shouldValidateInstanceGroup groups st)

/-- `masterStaticPods` from `validate_cluster.go`. -/
def masterStaticPods : List String :=
  ["kube-apiserver", "kube-controller-manager", "kube-scheduler"]

/-- Modelled from the spec: a workload (`v1.Pod`, not in the provided
sources), flattened to the fields the validator reads.  `ns` is the pod's
namespace. -/
structure ContainerStatus where
  name : String
  ready : Bool
deriving DecidableEq, Repr

/-- Modelled from the spec: a workload (`v1.Pod`, not in the provided
sources): namespace (`ns`), name, labels, priority class, phase, host
address and container statuses. -/
structure Pod where
  ns : String
  name : String
  labels : List (String × String)
  priorityClassName : String
  phase : String
  hostIP : String
  containerStatuses : List ContainerStatus
deriving DecidableEq, Repr

/-- `v1.PodSucceeded`. -/
def PodSucceeded : String := "Succeeded"

/-- `v1.PodPending`. -/
def PodPending : String := "Pending"

/-- `v1.PodUnknown`. -/
def PodUnknown : String := "Unknown"

/-- `v1.PodRunning`. -/
def PodRunning : String := "Running"

/-- The first loop of `collectPodFailures` (lines 212-224): build the
`masterWithoutPod` pending-set map (one full static-pod checklist per
control-plane-labeled node) and the `nodeByAddress` map. -/
def buildPodMapsStep
    (maps : List (String × List String) × List (String × String))
    (node : Node) :
    List (String × List String) × List (String × String) :=
  let masterWithoutPod :=
    if (node.labels.lookup controlPlaneLabel).isSome then
      mapInsert maps.1 node.name masterStaticPods
    else maps.1
  let nodeByAddress := node.addresses.foldl
    (fun nba addr => mapInsert nba addr node.name) maps.2
  (masterWithoutPod, nodeByAddress)

def buildPodMaps (nodes : List Node) :
    List (String × List String) × List (String × String) :=
  nodes.foldl buildPodMapsStep ([], [])

/-- Go `masterWithoutPod[nodeName][app]`: false when either map misses
its key. -/
def mwpHas (mwp : List (String × List String)) (nodeName app : String) :
    Bool :=
  match mwp.lookup nodeName with
  | some pending => pending.contains app
  | none => false

/-- Go `delete(masterWithoutPod[nodeName], app)`. -/
def mwpDelete (mwp : List (String × List String)) (nodeName app : String) :
    List (String × List String) :=
  mwp.map (fun p => if p.1 == nodeName then (p.1, p.2.filter (fun a => !(a == app))) else p)

/-- The state threaded through the pod stream of `collectPodFailures`. -/
structure PFState where
  masterWithoutPod : List (String × List String)
  vc : ValidationCluster
deriving DecidableEq, Repr

/-- The per-pod body of the stream callback of `collectPodFailures`
(lines 229-287).  The pending-set removal (step 1) runs before the
caller-supplied pod filter is applied. -/
def processPod (podValidationFilter : Pod → Bool)
    (nodeByAddress : List (String × String))
    (nodeInstanceGroupMapping : List (String × InstanceGroup))
    (st : PFState) (pod : Pod) : PFState :=
  let app := lookupLabel pod.labels "k8s-app"
  let hostNodeName := (nodeByAddress.lookup pod.hostIP).getD ""
  let st :=
    if pod.ns == "kube-system" && mwpHas st.masterWithoutPod hostNodeName app
    then { st with masterWithoutPod :=
            mwpDelete st.masterWithoutPod hostNodeName app }
    else st
  if !podValidationFilter pod then st
  else if !(pod.priorityClassName == "system-cluster-critical") &&
      !(pod.priorityClassName == "system-node-critical") then st
  else if pod.phase == PodSucceeded then st
  else
    let podNode : Option InstanceGroup :=
      if pod.priorityClassName == "system-node-critical" then
        nodeInstanceGroupMapping.lookup
          ((nodeByAddress.lookup pod.hostIP).getD "")
      else none
    if pod.phase == PodPending then
      let err : ValidationError :=
        { Kind := "Pod", Name := pod.ns ++ "/" ++ pod.name,
          Message := pod.priorityClassName ++ " pod " ++ goQuote pod.name ++
            " is pending",
          InstanceGroup := podNode }
      { st with vc := st.vc.addError err }
    else if pod.phase == PodUnknown then
      let err : ValidationError :=
        { Kind := "Pod", Name := pod.ns ++ "/" ++ pod.name,
          Message := pod.priorityClassName ++ " pod " ++ goQuote pod.name ++
            " is unknown phase",
          InstanceGroup := podNode }
      { st with vc := st.vc.addError err }
    else
      let notready := (pod.containerStatuses.filter
        (fun c => !c.ready)).map (fun c => c.name)
      if !(notready.length == 0) then
        let err : ValidationError :=
          { Kind := "Pod", Name := pod.ns ++ "/" ++ pod.name,
            Message := pod.priorityClassName ++ " pod " ++
              goQuote pod.name ++ " is not ready (" ++
              String.intercalate "," notready ++ ")",
            InstanceGroup := podNode }
        { st with vc := st.vc.addError err }
      else st

/-- The final sweep of `collectPodFailures` (lines 293-302): one node
failure per static pod still pending on a control-plane node. -/
def missingStaticPodError
    (nodeInstanceGroupMapping : List (String × InstanceGroup))
    (nodeName app : String) : ValidationError :=
  { Kind := "Node", Name := nodeName,
    Message := "control-plane node " ++ goQuote nodeName ++
      " is missing " ++ app ++ " pod",
    InstanceGroup := nodeInstanceGroupMapping.lookup nodeName }

def missingStaticSweep
    (nodeInstanceGroupMapping : List (String × InstanceGroup))
    (mwp : List (String × List String)) (vc : ValidationCluster) :
    ValidationCluster :=
  mwp.foldl
    (fun vc p =>
      p.2.foldl
        (fun vc app =>
          vc.addError (missingStaticPodError nodeInstanceGroupMapping p.1 app))
        vc)
    vc

/-- `(*ValidationCluster).collectPodFailures`, with the streamed pod list
as input (the pager itself is an external collaborator). -/
def collectPodFailures (v : ValidationCluster) (nodes : List Node)
    (nodeInstanceGroupMapping : List (String × InstanceGroup))
    (podValidationFilter : Pod → Bool) (pods : List Pod) :
    ValidationCluster :=
  let maps := buildPodMaps nodes
  let st := pods.foldl
    (processPod podValidationFilter maps.2 nodeInstanceGroupMapping)
    { masterWithoutPod := maps.1, vc := v }
  missingStaticSweep nodeInstanceGroupMapping st.masterWithoutPod st.vc

/-- Modelled from the spec: `cloudup.PlaceholderIP` (not in the provided
sources), the bootstrap IPv4 sentinel the API DNS points at before the
control plane is up. -/
def PlaceholderIP : String := "203.0.113.123"

/-- Modelled from the spec: `cloudup.PlaceholderIPv6` (not in the
provided sources), the bootstrap IPv6 sentinel. -/
def PlaceholderIPv6 : String := "fd00:dead:beef::1"

/-- `sort.Strings`: ascending insertion into a sorted list. -/
def insertSorted (s : String) : List String → List String
  | [] => [s]
  | t :: ts => if s ≤ t then s :: t :: ts else t :: insertSorted s ts

/-- `sort.Strings`: stable ascending sort. -/
def sortStrings (l : List String) : List String := l.foldr insertSorted []

/-- `hasPlaceHolderIP`, given the resolved address list (URL parsing and
DNS resolution are external and fallible; their failures surface as the
`Except` input of `Validate`).  Returns the matched placeholder address,
or "" when none matches. -/
def hasPlaceHolderIP (hostAddrs : List String) : String :=
  let sorted := sortStrings hostAddrs
  match sorted.find? (fun h => h == PlaceholderIP || h == PlaceholderIPv6) with
  | some h => h
  | none => ""

/-- Modelled from the spec: `kops.ExternalDNSProviderDNSController` (not
in the provided sources). -/
def ExternalDNSProviderDNSController : String := "dns-controller"

/-- Modelled from the spec: `kops.ExternalDNSProviderExternalDNS` (not in
the provided sources). -/
def ExternalDNSProviderExternalDNS : String := "external-dns"

/-- Modelled from the spec: the cluster descriptor fields `Validate`
reads: name, the DNS-mode predicates `UsesLegacyGossip`/`UsesNoneDNS`, and
the optional external-DNS provider from `Spec.ExternalDNS`. -/
structure Cluster where
  name : String
  usesLegacyGossip : Bool
  usesNoneDNS : Bool
  externalDNS : Option String
deriving Repr

/-- `clusterValidatorImpl` (the cloud and Kubernetes clients are external
collaborators whose answers are inputs of `Validate`). -/
structure clusterValidatorImpl where
  cluster : Cluster
  allInstanceGroups : List InstanceGroup
  filterInstanceGroups : InstanceGroup → Bool
  filterPodsForValidation : Pod → Bool

/-- `NewClusterValidator`: rejects an empty instance-group list, defaults
both filters to accept-all. -/
def NewClusterValidator (cluster : Cluster)
    (instanceGroupList : List InstanceGroup)
    (filterInstanceGroups : Option (InstanceGroup → Bool))
    (filterPodsForValidation : Option (Pod → Bool)) :
    Except String clusterValidatorImpl :=
  if instanceGroupList.length == 0 then
    .error "no InstanceGroup objects found"
  else
    .ok { cluster := cluster,
          allInstanceGroups := instanceGroupList,
          filterInstanceGroups := filterInstanceGroups.getD (fun _ => true),
          filterPodsForValidation :=
            filterPodsForValidation.getD (fun _ => true) }

/-- The answers of the external collaborators consumed by one `Validate`
run: the resolved API host addresses, the node list, the cloud inventory
(in map iteration order) and the streamed pod list; each fallible. -/
structure ValidateInputs where
  resolvedHostAddrs : Except String (List String)
  nodeList : Except String (List Node)
  cloudGroups : Except String (List CloudInstanceGroup)
  podStream : Except String (List Pod)

/-- The placeholder-IP failure message of `Validate` (lines 165-170). -/
def placeholderMessage (dnsProvider addr : String) : String :=
  "Validation Failed\n\n" ++
  "The " ++ dnsProvider ++
  " Kubernetes deployment has not updated the Kubernetes cluster\x27s API DNS entry to the correct IP address." ++
  "  The API DNS IP address is the placeholder address that kops creates: " ++ addr ++ "." ++
  "  Please wait about 5-10 minutes for a control plane node to start, " ++ dnsProvider ++
  " to launch, and DNS to propagate." ++
  "  The protokube container and " ++ dnsProvider ++
  " deployment logs may contain more diagnostic information." ++
  "  Etcd and the API DNS entries must be updated for a kops Kubernetes cluster to start."

/-- The tail of `Validate` after the DNS gate (lines 180-197): list
nodes, query the cloud inventory, run `validateNodes`, consume the pod
stream.  The result pairs the returned report with the returned error;
the outer `Option` is `none` when `validateNodes` panics. -/
def validateAfterDNSCheck (v : clusterValidatorImpl) (inp : ValidateInputs)
    (validation : ValidationCluster) :
    Option (Option ValidationCluster × Option String) :=
  match inp.nodeList with
  | .error e => some (none, some ("error listing nodes: " ++ e))
  | .ok _ =>
    match inp.cloudGroups with
    | .error e => some (none, some e)
    | .ok cloudGroups =>
      match validateNodes validation cloudGroups v.allInstanceGroups
          v.filterInstanceGroups with
      | none => none
      | some st =>
        match inp.podStream with
        | .error e =>
          some (none, some ("cannot get pod health for " ++
            goQuote v.cluster.name ++ ": " ++ e))
        | .ok pods =>
          some (some (collectPodFailures st.vc st.readyNodes
            st.nodeInstanceGroupMapping v.filterPodsForValidation pods),
            none)

/-- `(*clusterValidatorImpl).Validate`.  Returns `some (report, error)`
mirroring the Go return pair, or `none` when the run panics on a nil
`InstanceGroup` link inside `validateNodes`. -/
def Validate (v : clusterValidatorImpl) (inp : ValidateInputs) :
    Option (Option ValidationCluster × Option String) :=
  let validation : ValidationCluster := {}
  if !v.cluster.usesLegacyGossip && !v.cluster.usesNoneDNS then
    let dnsProvider :=
      match v.cluster.externalDNS with
      | some p =>
        if p == ExternalDNSProviderExternalDNS then
          ExternalDNSProviderExternalDNS
        else ExternalDNSProviderDNSController
      | none => ExternalDNSProviderDNSController
    match inp.resolvedHostAddrs with
    | .error e => some (none, some e)
    | .ok hostAddrs =>
      let hasPlaceHolderIPAddress := hasPlaceHolderIP hostAddrs
      if !(hasPlaceHolderIPAddress == "") then
        let err : ValidationError :=
          { Kind := "dns", Name := "apiserver",
            Message := placeholderMessage dnsProvider hasPlaceHolderIPAddress,
            InstanceGroup := none }
        some (some (validation.addError err), none)
      else
        validateAfterDNSCheck v inp validation
  else
    validateAfterDNSCheck v inp validation


/-! ## Basic lemmas -/

theorem addError_Failures (v : ValidationCluster) (e : ValidationError) :
    (v.addError e).Failures = v.Failures ++ [e] := rfl

theorem foldlM_processGroup_isSome (pred : InstanceGroup → Bool)
    (l : List CloudInstanceGroup) (st : VNState) :
    (l.foldlM (processGroup pred) st).isSome = true ↔
      ∀ cg ∈ l, cg.InstanceGroup.isSome = true := by
  induction l generalizing st with
  | nil => simp
  | cons cg l ih =>
    cases h : cg.InstanceGroup with
    | none =>
      have h0 : processGroup pred st cg = none := by
        simp [processGroup, h]
      simp only [List.foldlM_cons, h0, Option.bind_eq_bind, Option.none_bind]
      constructor
      · intro hs
        simp at hs
      · intro hall
        have hcg := hall cg (List.mem_cons_self cg l)
        rw [h] at hcg
        simp at hcg
    | some ig =>
      have hpg : ∃ st2, processGroup pred st cg = some st2 := by
        simp only [processGroup, h]
        by_cases hp : pred ig
        · simp [hp]
        · simp [hp]
      obtain ⟨st2, hst2⟩ := hpg
      simp only [List.foldlM_cons, hst2, Option.bind_eq_bind,
        Option.some_bind, List.mem_cons]
      constructor
      · intro hs cg2 hcg2
        rcases hcg2 with rfl | hcg2
        · simp [h]
        · exact (ih st2).mp hs cg2 hcg2
      · intro hall
        exact (ih st2).mpr (fun cg2 h2 => hall cg2 (Or.inr h2))

/-! ## Claims C3, C7, C10, C9 -/

/-- Claim C3: in `validateNodes`, a cloud group is processed without error
only if its `InstanceGroup` link is non-nil.  The scope-predicate guard
skips a group only when the link is non-nil and the predicate rejects it,
and the group name is dereferenced unconditionally right after, so the
whole pass completes (returns `some`) exactly when every cloud group
carries a non-nil link; any nil link reaches the nil dereference and the
run panics (`none`). -/
theorem claim_C3 (v : ValidationCluster)
    (cloudGroups : List CloudInstanceGroup) (groups : List InstanceGroup)
    (pred : InstanceGroup → Bool) :
    (validateNodes v cloudGroups groups pred).isSome = true ↔
      ∀ cg ∈ cloudGroups, cg.InstanceGroup.isSome = true := by
  unfold validateNodes
  rw [← foldlM_processGroup_isSome pred cloudGroups
    ({ vc := v, groupsSeen := [], readyNodes := [],
       nodeInstanceGroupMapping := [] } : VNState)]
  cases h : List.foldlM (processGroup pred)
      ({ vc := v, groupsSeen := [], readyNodes := [],
         nodeInstanceGroupMapping := [] } : VNState) cloudGroups <;>
    simp [h]

/-- Claim C7: a detached member with no linked node produces no machine
failure (the member step leaves the state unchanged) and is excluded from
the live-member count compared against the group target size. -/
theorem claim_C7 (ig : InstanceGroup) (st : VNState) (m : CloudInstance)
    (ms1 ms2 : List CloudInstance)
    (hnode : m.Node = none) (hdet : m.Status = CloudInstanceStatusDetached) :
    processMember ig st m = st ∧
    notDetachedCount (ms1 ++ m :: ms2) = notDetachedCount (ms1 ++ ms2) := by
  constructor
  · simp [processMember, hnode, hdet]
  · simp [notDetachedCount, hdet]

def igC7 : InstanceGroup := { name := "workers", role := "Node" }

def stC7 : VNState :=
  { vc := {}, groupsSeen := [], readyNodes := [],
    nodeInstanceGroupMapping := [] }

def mC7 : CloudInstance :=
  { ID := "i-detached", Status := CloudInstanceStatusDetached, State := "",
    Node := none }

theorem claim_C7_witness :
    processMember igC7 stC7 mC7 = stC7 ∧
    notDetachedCount ([] ++ mC7 :: []) = notDetachedCount ([] ++ []) :=
  claim_C7 igC7 stC7 mC7 [] [] (by decide) (by decide)

/-- Claim C10: a warm-pool member whose lifecycle status is not detached
is still counted in the live-member count compared against the group
target size (only detached status excludes it); warm-pool membership
suppresses only the machine-not-joined failure. -/
theorem claim_C10 (ig : InstanceGroup) (st : VNState) (m : CloudInstance)
    (ms1 ms2 : List CloudInstance)
    (hw : m.State = WarmPool) (hnd : m.Status ≠ CloudInstanceStatusDetached) :
    notDetachedCount (ms1 ++ m :: ms2) = notDetachedCount (ms1 ++ ms2) + 1 ∧
    (m.Node = none → processMember ig st m = st) := by
  constructor
  · simp only [notDetachedCount, List.filter_append, List.filter_cons]
    have hb : (m.Status == CloudInstanceStatusDetached) = false := by
      simp [hnd]
    simp [hb]
    omega
  · intro hnode
    simp [processMember, hnode, hw]

def igC10 : InstanceGroup := { name := "workers", role := "Node" }

def stC10 : VNState :=
  { vc := {}, groupsSeen := [], readyNodes := [],
    nodeInstanceGroupMapping := [] }

def mC10 : CloudInstance :=
  { ID := "i-warm", Status := "InService", State := WarmPool, Node := none }

theorem claim_C10_witness :
    notDetachedCount ([] ++ mC10 :: []) = notDetachedCount ([] ++ []) + 1 ∧
    (mC10.Node = none → processMember igC10 stC10 mC10 = stC10) :=
  claim_C10 igC10 stC10 mC10 [] [] (by decide) (by decide)

/-- Claim C9: every pod failure recorded by the pod-stream step carries a
DesiredGroup reference exactly when the pod priority class is
"system-node-critical" and the node found at the pod host address maps to
a DesiredGroup; for any other priority (including
"system-cluster-critical") the reference is nil. -/
theorem processPod_vc_cases (podValidationFilter : Pod → Bool)
    (nodeByAddress : List (String × String))
    (nodeInstanceGroupMapping : List (String × InstanceGroup))
    (st : PFState) (pod : Pod) :
    (processPod podValidationFilter nodeByAddress nodeInstanceGroupMapping
        st pod).vc = st.vc ∨
      ∃ err, (processPod podValidationFilter nodeByAddress
          nodeInstanceGroupMapping st pod).vc = st.vc.addError err ∧
        err.Kind = "Pod" ∧ err.Name = pod.ns ++ "/" ++ pod.name ∧
        err.InstanceGroup =
          (if pod.priorityClassName == "system-node-critical" then
            nodeInstanceGroupMapping.lookup
              ((nodeByAddress.lookup pod.hostIP).getD "")
          else none) := by
  simp only [processPod]
  split_ifs <;>
    first
      | (left; rfl)
      | (right; exact ⟨_, rfl, rfl, rfl, rfl⟩)

/-- Claim C9: every pod failure recorded by the pod-stream step carries a
DesiredGroup reference exactly when the pod priority class is
"system-node-critical" and the node found at the pod host address maps to
a DesiredGroup; for any other priority (including
"system-cluster-critical") the reference is nil. -/
theorem claim_C9 (podValidationFilter : Pod → Bool)
    (nodeByAddress : List (String × String))
    (nodeInstanceGroupMapping : List (String × InstanceGroup))
    (st : PFState) (pod : Pod) (f : ValidationError)
    (hf : f ∈ (processPod podValidationFilter nodeByAddress
      nodeInstanceGroupMapping st pod).vc.Failures) :
    f ∈ st.vc.Failures ∨
      (f.Kind = "Pod" ∧
        f.InstanceGroup =
          (if pod.priorityClassName == "system-node-critical" then
            nodeInstanceGroupMapping.lookup
              ((nodeByAddress.lookup pod.hostIP).getD "")
          else none)) := by
  rcases processPod_vc_cases podValidationFilter nodeByAddress
      nodeInstanceGroupMapping st pod with hvc | ⟨err, hvc, hkind, _, hig⟩
  · rw [hvc] at hf
    exact Or.inl hf
  · rw [hvc, addError_Failures, List.mem_append] at hf
    rcases hf with hf | hf
    · exact Or.inl hf
    · simp only [List.mem_singleton] at hf
      subst hf
      exact Or.inr ⟨hkind, hig⟩

def nbaC9 : List (String × String) := [("10.0.0.9", "nodeC9")]

def mapC9 : List (String × InstanceGroup) :=
  [("nodeC9", { name := "workers", role := "Node" })]

def stC9 : PFState := { masterWithoutPod := [], vc := {} }

def podC9 : Pod :=
  { ns := "kube-system", name := "p9", labels := [],
    priorityClassName := "system-node-critical", phase := PodPending,
    hostIP := "10.0.0.9", containerStatuses := [] }

theorem claim_C9_witness :
    (({ Kind := "Pod", Name := "kube-system/p9",
        Message := "system-node-critical pod \"p9\" is pending",
        InstanceGroup := some { name := "workers", role := "Node" } } :
        ValidationError) ∈ stC9.vc.Failures) ∨
      (({ Kind := "Pod", Name := "kube-system/p9",
          Message := "system-node-critical pod \"p9\" is pending",
          InstanceGroup := some { name := "workers", role := "Node" } } :
          ValidationError).Kind = "Pod" ∧
        ({ Kind := "Pod", Name := "kube-system/p9",
           Message := "system-node-critical pod \"p9\" is pending",
           InstanceGroup := some { name := "workers", role := "Node" } } :
           ValidationError).InstanceGroup =
          (if podC9.priorityClassName == "system-node-critical" then
            mapC9.lookup ((nbaC9.lookup podC9.hostIP).getD "")
          else none)) :=
  claim_C9 (fun _ => true) nbaC9 mapC9 stC9 podC9 _ (by decide)



/-! ## Claims C8 and C4 -/

/-- Claim C8: when the cluster relies on DNS-based discovery and the API
host resolves exactly to the IPv4 placeholder address, `Validate`
short-circuits: it returns no error and a report with exactly one failure
of kind "dns" and an empty node list, regardless of (even failing) node,
cloud-inventory or pod-stream collaborators. -/
theorem claim_C8 (v : clusterValidatorImpl) (inp : ValidateInputs)
    (hg : v.cluster.usesLegacyGossip = false)
    (hn : v.cluster.usesNoneDNS = false)
    (hr : inp.resolvedHostAddrs = .ok [PlaceholderIP]) :
    ∃ r, Validate v inp = some (some r, none) ∧
      r.Failures.length = 1 ∧ (∀ f ∈ r.Failures, f.Kind = "dns") ∧
      r.Nodes = [] := by
  have hph : hasPlaceHolderIP [PlaceholderIP] = PlaceholderIP := rfl
  have hne : (PlaceholderIP == "") = false := rfl
  simp only [Validate, hg, hn, hr, Bool.not_false, Bool.and_self, if_true,
    hph, hne]
  refine ⟨_, rfl, rfl, ?_, rfl⟩
  intro f hf
  simp only [ValidationCluster.addError, List.nil_append,
    List.mem_singleton] at hf
  subst hf
  rfl

def clusterC8 : Cluster :=
  { name := "c8", usesLegacyGossip := false, usesNoneDNS := false,
    externalDNS := none }

def vC8 : clusterValidatorImpl :=
  { cluster := clusterC8,
    allInstanceGroups := [{ name := "workers", role := "Node" }],
    filterInstanceGroups := fun _ => true,
    filterPodsForValidation := fun _ => true }

def inpC8 : ValidateInputs :=
  { resolvedHostAddrs := .ok [PlaceholderIP],
    nodeList := .error "node list never queried",
    cloudGroups := .error "cloud inventory never queried",
    podStream := .error "pod stream never consumed" }

theorem claim_C8_witness :
    ∃ r, Validate vC8 inpC8 = some (some r, none) ∧
      r.Failures.length = 1 ∧ (∀ f ∈ r.Failures, f.Kind = "dns") ∧
      r.Nodes = [] :=
  claim_C8 vC8 inpC8 rfl rfl rfl

theorem validateAfterDNSCheck_shape (v : clusterValidatorImpl)
    (inp : ValidateInputs) (val : ValidationCluster)
    (res : Option ValidationCluster × Option String)
    (h : validateAfterDNSCheck v inp val = some res) :
    (res.1.isSome = true ∧ res.2 = none) ∨
      (res.1 = none ∧ res.2.isSome = true) := by
  unfold validateAfterDNSCheck at h
  split at h
  · injection h with h; subst h; simp
  · split at h
    · injection h with h; subst h; simp
    · split at h
      · exact Option.noConfusion h
      · split at h
        · injection h with h; subst h; simp
        · injection h with h; subst h; simp

theorem Validate_shape (v : clusterValidatorImpl) (inp : ValidateInputs)
    (res : Option ValidationCluster × Option String)
    (h : Validate v inp = some res) :
    (res.1.isSome = true ∧ res.2 = none) ∨
      (res.1 = none ∧ res.2.isSome = true) := by
  simp only [Validate] at h
  split at h
  · split at h
    · injection h with h; subst h; simp
    · split at h
      · injection h with h; subst h; simp
      · exact validateAfterDNSCheck_shape _ _ _ _ h
  · exact validateAfterDNSCheck_shape _ _ _ _ h

def clusterC4 : Cluster :=
  { name := "c4", usesLegacyGossip := false, usesNoneDNS := false,
    externalDNS := none }

def vC4 : clusterValidatorImpl :=
  { cluster := clusterC4,
    allInstanceGroups := [{ name := "workers", role := "Node" }],
    filterInstanceGroups := fun _ => true,
    filterPodsForValidation := fun _ => true }

def inpC4 : ValidateInputs :=
  { resolvedHostAddrs := .ok [PlaceholderIP], nodeList := .ok [],
    cloudGroups := .ok [], podStream := .ok [] }

def rC4 : ValidationCluster :=
  ({} : ValidationCluster).addError
    { Kind := "dns", Name := "apiserver",
      Message := placeholderMessage ExternalDNSProviderDNSController
        PlaceholderIP,
      InstanceGroup := none }

/-- Claim C4: `Validate` returns either a fatal error with no report or a
non-nil report with no error, never both; an empty DesiredGroup list is
rejected as a fatal error by `NewClusterValidator`; and a run whose only
finding is a recorded failure yields a non-nil report with a non-empty
failure list and a nil error. -/
theorem claim_C4 :
    (∀ (v : clusterValidatorImpl) (inp : ValidateInputs)
        (res : Option ValidationCluster × Option String),
        Validate v inp = some res →
        (res.1.isSome = true ∧ res.2 = none) ∨
          (res.1 = none ∧ res.2.isSome = true)) ∧
    (∀ (cluster : Cluster) (figs : Option (InstanceGroup → Bool))
        (fpods : Option (Pod → Bool)),
        NewClusterValidator cluster [] figs fpods =
          Except.error "no InstanceGroup objects found") ∧
    (∃ r, Validate vC4 inpC4 = some (some r, none) ∧ r.Failures ≠ []) := by
  refine ⟨Validate_shape, fun cluster figs fpods => rfl, rC4, by decide, ?_⟩
  simp [rC4, ValidationCluster.addError]

theorem claim_C4_witness :
    ((some rC4).isSome = true ∧ (none : Option String) = none) ∨
      ((some rC4 : Option ValidationCluster) = none ∧
        (none : Option String).isSome = true) :=
  claim_C4.1 vC4 inpC4 (some rC4, none) (by decide)




/-! ## Characterization of `validateNodes` -/

theorem processMember_groupsSeen (ig : InstanceGroup) (st : VNState)
    (m : CloudInstance) :
    (processMember ig st m).groupsSeen = st.groupsSeen := by
  cases hm : m.Node <;> simp only [processMember, hm] <;> split_ifs <;> rfl

theorem processMember_mapping (ig : InstanceGroup) (st : VNState)
    (m : CloudInstance) :
    ∀ p ∈ (processMember ig st m).nodeInstanceGroupMapping,
      p ∈ st.nodeInstanceGroupMapping ∨ p.2 = ig := by
  cases hm : m.Node <;> simp only [processMember, hm] <;> split_ifs <;>
    first
      | exact fun p hp => Or.inl hp
      | (intro p hp
         rcases List.mem_cons.mp hp with rfl | hp2
         · exact Or.inr rfl
         · exact Or.inl hp2)

theorem processMember_cases (ig : InstanceGroup) (st : VNState)
    (m : CloudInstance) :
    (processMember ig st m).vc.Failures = st.vc.Failures ∨
      ∃ err, (processMember ig st m).vc.Failures = st.vc.Failures ++ [err] ∧
        (err.Kind = "Machine" ∨ err.Kind = "Node") ∧
        err.InstanceGroup = some ig := by
  cases hm : m.Node <;> simp only [processMember, hm] <;> split_ifs <;>
    first
      | (left; rfl)
      | (right; exact ⟨_, rfl, Or.inl rfl, rfl⟩)
      | (right; exact ⟨_, rfl, Or.inr rfl, rfl⟩)

theorem processMember_char (ig : InstanceGroup) (st : VNState)
    (m : CloudInstance) :
    ∃ extra, (processMember ig st m).vc.Failures = st.vc.Failures ++ extra ∧
      (∀ f ∈ extra, (f.Kind = "Machine" ∨ f.Kind = "Node") ∧
        f.InstanceGroup = some ig) ∧
      (processMember ig st m).groupsSeen = st.groupsSeen ∧
      (∀ p ∈ (processMember ig st m).nodeInstanceGroupMapping,
        p ∈ st.nodeInstanceGroupMapping ∨ p.2 = ig) := by
  rcases processMember_cases ig st m with h | ⟨err, h, hk, hg⟩
  · refine ⟨[], by rw [h, List.append_nil], by simp,
      processMember_groupsSeen ig st m, processMember_mapping ig st m⟩
  · refine ⟨[err], h, ?_, processMember_groupsSeen ig st m,
      processMember_mapping ig st m⟩
    intro f hf
    simp only [List.mem_singleton] at hf
    subst hf
    exact ⟨hk, hg⟩

theorem foldl_processMember_char (ig : InstanceGroup)
    (ms : List CloudInstance) (st : VNState) :
    ∃ extra,
      (ms.foldl (processMember ig) st).vc.Failures =
        st.vc.Failures ++ extra ∧
      (∀ f ∈ extra, (f.Kind = "Machine" ∨ f.Kind = "Node") ∧
        f.InstanceGroup = some ig) ∧
      (ms.foldl (processMember ig) st).groupsSeen = st.groupsSeen ∧
      (∀ p ∈ (ms.foldl (processMember ig) st).nodeInstanceGroupMapping,
        p ∈ st.nodeInstanceGroupMapping ∨ p.2 = ig) := by
  induction ms generalizing st with
  | nil =>
    exact ⟨[], (List.append_nil _).symm, by simp, rfl, fun p hp => Or.inl hp⟩
  | cons m ms ih =>
    obtain ⟨e1, h1, h1p, h1s, h1m⟩ := processMember_char ig st m
    obtain ⟨e2, h2, h2p, h2s, h2m⟩ := ih (processMember ig st m)
    refine ⟨e1 ++ e2, ?_, ?_, ?_, ?_⟩
    · rw [List.foldl_cons, h2, h1, List.append_assoc]
    · intro f hf
      rcases List.mem_append.mp hf with hf | hf
      · exact h1p f hf
      · exact h2p f hf
    · rw [List.foldl_cons, h2s, h1s]
    · intro p hp
      rw [List.foldl_cons] at hp
      rcases h2m p hp with hp2 | hp2
      · exact h1m p hp2
      · exact Or.inr hp2


theorem processGroup_char (pred : InstanceGroup → Bool) (st : VNState)
    (cg : CloudInstanceGroup) (st2 : VNState)
    (h : processGroup pred st cg = some st2) :
    (∃ extra, st2.vc.Failures = st.vc.Failures ++ extra ∧
      ∀ f ∈ extra,
        (f.Kind = "InstanceGroup" ∨ f.Kind = "Machine" ∨ f.Kind = "Node") ∧
        ∃ g, cg.InstanceGroup = some g ∧ pred g = true ∧
          f.InstanceGroup = some g ∧
          (f.Kind = "InstanceGroup" → f.Name = g.name)) ∧
    (∀ s ∈ st.groupsSeen, s ∈ st2.groupsSeen) ∧
    (∀ g, cg.InstanceGroup = some g → pred g = true →
      g.name ∈ st2.groupsSeen) ∧
    (∀ p ∈ st2.nodeInstanceGroupMapping,
      p ∈ st.nodeInstanceGroupMapping ∨
        ∃ g, cg.InstanceGroup = some g ∧ pred g = true ∧ p.2 = g) := by
  cases hig : cg.InstanceGroup with
  | none =>
    simp only [processGroup, hig] at h
    exact Option.noConfusion h
  | some ig =>
    simp only [processGroup, hig] at h
    by_cases hp : pred ig
    · rw [if_neg (by simp [hp])] at h
      by_cases hcount :
          ((notDetachedCount (cg.Ready ++ cg.NeedUpdate) : Int) <
            cg.TargetSize)
      · rw [if_pos hcount] at h
        injection h with h
        obtain ⟨e2, h2, h2p, h2s, h2m⟩ :=
          foldl_processMember_char ig (cg.Ready ++ cg.NeedUpdate) _
        rw [h] at h2 h2s h2m
        dsimp only at h2 h2s h2m
        rw [addError_Failures, List.append_assoc] at h2
        refine ⟨⟨_, h2, ?_⟩, ?_, ?_, ?_⟩
        · intro f hf
          rcases List.mem_append.mp hf with hf | hf
          · simp only [List.mem_singleton] at hf
            subst hf
            exact ⟨Or.inl rfl, ig, rfl, hp, rfl, fun _ => rfl⟩
          · obtain ⟨hk, hig2⟩ := h2p f hf
            refine ⟨Or.inr hk, ig, rfl, hp, hig2, ?_⟩
            rcases hk with hk | hk <;> (intro hK; rw [hK] at hk; simp at hk)
        · intro s hs
          rw [h2s]
          exact List.mem_cons_of_mem _ hs
        · intro g hg hpg
          simp only [hig, Option.some.injEq] at hg
          subst hg
          rw [h2s]
          exact List.mem_cons_self _ _
        · intro p hp2
          rcases h2m p hp2 with hp3 | hp3
          · exact Or.inl hp3
          · exact Or.inr ⟨ig, rfl, hp, hp3⟩
      · rw [if_neg hcount] at h
        injection h with h
        obtain ⟨e2, h2, h2p, h2s, h2m⟩ :=
          foldl_processMember_char ig (cg.Ready ++ cg.NeedUpdate) _
        rw [h] at h2 h2s h2m
        dsimp only at h2 h2s h2m
        refine ⟨⟨e2, h2, ?_⟩, ?_, ?_, ?_⟩
        · intro f hf
          obtain ⟨hk, hig2⟩ := h2p f hf
          refine ⟨Or.inr hk, ig, rfl, hp, hig2, ?_⟩
          rcases hk with hk | hk <;> (intro hK; rw [hK] at hk; simp at hk)
        · intro s hs
          rw [h2s]
          exact List.mem_cons_of_mem _ hs
        · intro g hg hpg
          simp only [hig, Option.some.injEq] at hg
          subst hg
          rw [h2s]
          exact List.mem_cons_self _ _
        · intro p hp2
          rcases h2m p hp2 with hp3 | hp3
          · exact Or.inl hp3
          · exact Or.inr ⟨ig, rfl, hp, hp3⟩
    · rw [if_pos (by simp [hp])] at h
      injection h with h
      subst h
      refine ⟨⟨[], (List.append_nil _).symm, by simp⟩, fun s hs => hs, ?_,
        fun p hp2 => Or.inl hp2⟩
      intro g hg hpg
      simp only [hig, Option.some.injEq] at hg
      subst hg
      exact absurd hpg (by simp [hp])

theorem foldlM_processGroup_char (pred : InstanceGroup → Bool)
    (l : List CloudInstanceGroup) (st st2 : VNState)
    (h : l.foldlM (processGroup pred) st = some st2) :
    (∃ extra, st2.vc.Failures = st.vc.Failures ++ extra ∧
      ∀ f ∈ extra,
        (f.Kind = "InstanceGroup" ∨ f.Kind = "Machine" ∨ f.Kind = "Node") ∧
        ∃ g, (∃ cg ∈ l, cg.InstanceGroup = some g) ∧ pred g = true ∧
          f.InstanceGroup = some g ∧
          (f.Kind = "InstanceGroup" → f.Name = g.name)) ∧
    (∀ s ∈ st.groupsSeen, s ∈ st2.groupsSeen) ∧
    (∀ cg ∈ l, ∀ g, cg.InstanceGroup = some g → pred g = true →
      g.name ∈ st2.groupsSeen) ∧
    (∀ p ∈ st2.nodeInstanceGroupMapping,
      p ∈ st.nodeInstanceGroupMapping ∨
        ∃ g, (∃ cg ∈ l, cg.InstanceGroup = some g) ∧ pred g = true ∧
          p.2 = g) := by
  induction l generalizing st with
  | nil =>
    simp only [List.foldlM_nil, Option.pure_def, Option.some.injEq] at h
    subst h
    exact ⟨⟨[], (List.append_nil _).symm, by simp⟩, fun s hs => hs,
      by simp, fun p hp => Or.inl hp⟩
  | cons cg l ih =>
    rw [List.foldlM_cons] at h
    cases hpg : processGroup pred st cg with
    | none => rw [hpg] at h; exact Option.noConfusion h
    | some st1 =>
      rw [hpg] at h
      simp only [Option.bind_eq_bind, Option.some_bind] at h
      obtain ⟨⟨e1, h1, h1p⟩, h1s, h1n, h1m⟩ :=
        processGroup_char pred st cg st1 hpg
      obtain ⟨⟨e2, h2, h2p⟩, h2s, h2n, h2m⟩ := ih st1 h
      refine ⟨⟨e1 ++ e2, ?_, ?_⟩, ?_, ?_, ?_⟩
      · rw [h2, h1, List.append_assoc]
      · intro f hf
        rcases List.mem_append.mp hf with hf | hf
        · obtain ⟨hk, g, hg, hpgt, hfg, hname⟩ := h1p f hf
          exact ⟨hk, g, ⟨cg, List.mem_cons_self _ _, hg⟩, hpgt, hfg, hname⟩
        · obtain ⟨hk, g, ⟨cg2, hcg2, hg⟩, hpgt, hfg, hname⟩ := h2p f hf
          exact ⟨hk, g, ⟨cg2, List.mem_cons_of_mem _ hcg2, hg⟩, hpgt, hfg,
            hname⟩
      · exact fun s hs => h2s s (h1s s hs)
      · intro cg2 hcg2 g hg hpgt
        rcases List.mem_cons.mp hcg2 with rfl | hcg3
        · exact h2s _ (h1n g hg hpgt)
        · exact h2n cg2 hcg3 g hg hpgt
      · intro p hp2
        rcases h2m p hp2 with hp3 | hp3
        · rcases h1m p hp3 with hp4 | ⟨g, hg, hpgt, hpg2⟩
          · exact Or.inl hp4
          · exact Or.inr ⟨g, ⟨cg, List.mem_cons_self _ _, hg⟩, hpgt, hpg2⟩
        · obtain ⟨g, ⟨cg2, hcg2, hg⟩, hpgt, hpg2⟩ := hp3
          exact Or.inr ⟨g, ⟨cg2, List.mem_cons_of_mem _ hcg2, hg⟩, hpgt,
            hpg2⟩


theorem missingGroupsSweep_char (pred : InstanceGroup → Bool)
    (groups : List InstanceGroup) (st : VNState) :
    ∃ extra,
      (missingGroupsSweep pred groups st).vc.Failures =
        st.vc.Failures ++ extra ∧
      (∀ f ∈ extra, f.Kind = "InstanceGroup" ∧
        ∃ g ∈ groups, pred g = true ∧ f.InstanceGroup = some g ∧
          f.Name = g.name) ∧
      (missingGroupsSweep pred groups st).nodeInstanceGroupMapping =
        st.nodeInstanceGroupMapping ∧
      (missingGroupsSweep pred groups st).readyNodes = st.readyNodes := by
  induction groups generalizing st with
  | nil =>
    exact ⟨[], (List.append_nil _).symm, by simp, rfl, rfl⟩
  | cons ig groups ih =>
    have hstep :
        ∀ st1 : VNState,
          (missingGroupsSweep pred (ig :: groups) st1 =
            missingGroupsSweep pred groups st1) ∨
          (missingGroupsSweep pred (ig :: groups) st1 =
            missingGroupsSweep pred groups
              { st1 with
                vc := st1.vc.addError (missingGroupError ig) } ∧
            pred ig = true) := by
      intro st1
      simp only [missingGroupsSweep, List.foldl_cons]
      split_ifs with h1 h2
      · exact Or.inl rfl
      · right
        constructor
        · rfl
        · revert h1
          cases pred ig <;> simp
      · exact Or.inl rfl
    rcases hstep st with hst | ⟨hst, hpig⟩
    · rw [hst]
      obtain ⟨e2, h2, h2p, h2m, h2r⟩ := ih st
      refine ⟨e2, h2, ?_, h2m, h2r⟩
      intro f hf
      obtain ⟨hk, g, hg, hpg, hfg, hname⟩ := h2p f hf
      exact ⟨hk, g, List.mem_cons_of_mem _ hg, hpg, hfg, hname⟩
    · rw [hst]
      obtain ⟨e2, h2, h2p, h2m, h2r⟩ :=
        ih { st with vc := st.vc.addError (missingGroupError ig) }
      have h2b :
          (missingGroupsSweep pred groups
            { st with
              vc := st.vc.addError (missingGroupError ig) }).vc.Failures =
          st.vc.Failures ++ (missingGroupError ig :: e2) := by
        rw [h2]
        simp [ValidationCluster.addError]
      refine ⟨missingGroupError ig :: e2, h2b, ?_, ?_, ?_⟩
      · intro f hf
        rcases List.mem_cons.mp hf with rfl | hf
        · exact ⟨rfl, ig, List.mem_cons_self _ _, hpig, rfl, rfl⟩
        · obtain ⟨hk, g, hg, hpg, hfg, hname⟩ := h2p f hf
          exact ⟨hk, g, List.mem_cons_of_mem _ hg, hpg, hfg, hname⟩
      · exact h2m
      · exact h2r

theorem missingGroupsSweep_all_seen (pred : InstanceGroup → Bool)
    (groups : List InstanceGroup) (st : VNState)
    (h : ∀ ig ∈ groups, pred ig = true →
      st.groupsSeen.contains ig.name = true) :
    missingGroupsSweep pred groups st = st := by
  induction groups with
  | nil => rfl
  | cons ig groups ih =>
    simp only [missingGroupsSweep, List.foldl_cons]
    have hskip :
        (if !pred ig then st
         else if !(st.groupsSeen.contains ig.name) then
           { st with vc := st.vc.addError (missingGroupError ig) }
         else st) = st := by
      by_cases hp : pred ig
      · rw [if_neg (by simp [hp]),
          if_neg (by rw [h ig (List.mem_cons_self _ _) hp]; simp)]
      · rw [if_pos (by simp [hp])]
    simp only [missingGroupsSweep] at ih
    rw [hskip]
    exact ih (fun ig2 hig2 hp2 => h ig2 (List.mem_cons_of_mem _ hig2) hp2)

theorem validateNodes_char (v : ValidationCluster)
    (cloudGroups : List CloudInstanceGroup) (groups : List InstanceGroup)
    (pred : InstanceGroup → Bool) (st2 : VNState)
    (h : validateNodes v cloudGroups groups pred = some st2) :
    ∃ extra, st2.vc.Failures = v.Failures ++ extra ∧
      (∀ f ∈ extra,
        (f.Kind = "InstanceGroup" ∨ f.Kind = "Machine" ∨ f.Kind = "Node") ∧
        ∃ g, ((∃ cg ∈ cloudGroups, cg.InstanceGroup = some g) ∨
            g ∈ groups) ∧
          pred g = true ∧ f.InstanceGroup = some g ∧
          (f.Kind = "InstanceGroup" → f.Name = g.name)) ∧
      (∀ p ∈ st2.nodeInstanceGroupMapping,
        ∃ g, (∃ cg ∈ cloudGroups, cg.InstanceGroup = some g) ∧
          pred g = true ∧ p.2 = g) := by
  unfold validateNodes at h
  cases hfold : List.foldlM (processGroup pred)
      ({ vc := v, groupsSeen := [], readyNodes := [],
         nodeInstanceGroupMapping := [] } : VNState) cloudGroups with
  | none => rw [hfold] at h; exact Option.noConfusion h
  | some st1 =>
    rw [hfold] at h
    injection h with h
    obtain ⟨⟨e1, h1, h1p⟩, _, _, h1m⟩ :=
      foldlM_processGroup_char pred cloudGroups _ st1 hfold
    obtain ⟨e2, h2, h2p, h2m, _⟩ := missingGroupsSweep_char pred groups st1
    rw [h] at h2 h2m
    refine ⟨e1 ++ e2, ?_, ?_, ?_⟩
    · rw [h2, h1]
      dsimp only
      rw [List.append_assoc]
    · intro f hf
      rcases List.mem_append.mp hf with hf | hf
      · obtain ⟨hk, g, hcg, hpg, hfg, hname⟩ := h1p f hf
        exact ⟨hk, g, Or.inl hcg, hpg, hfg, hname⟩
      · obtain ⟨hk, g, hg, hpg, hfg, hname⟩ := h2p f hf
        exact ⟨Or.inl hk, g, Or.inr hg, hpg, hfg, fun _ => hname⟩
    · intro p hp
      rw [h2m] at hp
      rcases h1m p hp with hp2 | ⟨g, hcg, hpg, hpeq⟩
      · simp at hp2
      · exact ⟨g, hcg, hpg, hpeq⟩


/-! ## Association-list lemmas -/

theorem mapInsert_mem {α : Type} (m : List (String × α)) (k : String)
    (v : α) (p : String × α) (hp : p ∈ mapInsert m k v) :
    p = (k, v) ∨ p ∈ m := by
  rcases List.mem_cons.mp hp with rfl | hp2
  · exact Or.inl rfl
  · exact Or.inr (List.mem_of_mem_filter hp2)

theorem mapInsert_fst_nodup {α : Type} (m : List (String × α)) (k : String)
    (v : α) (h : (m.map Prod.fst).Nodup) :
    ((mapInsert m k v).map Prod.fst).Nodup := by
  unfold mapInsert
  rw [List.map_cons, List.nodup_cons]
  constructor
  · intro hk
    obtain ⟨p, hp, hpk⟩ := List.mem_map.mp hk
    have hfp := List.of_mem_filter hp
    rw [hpk] at hfp
    simp at hfp
  · exact List.Nodup.sublist
      (List.Sublist.map _ (List.filter_sublist m)) h

theorem lookup_mem {α : Type} (m : List (String × α)) (k : String) (v : α)
    (h : m.lookup k = some v) : (k, v) ∈ m := by
  induction m with
  | nil => exact Option.noConfusion h
  | cons p m ih =>
    obtain ⟨pk, pv⟩ := p
    rw [List.lookup_cons] at h
    by_cases hk : (k == pk) = true
    · rw [hk] at h
      injection h with h
      subst h
      rw [beq_iff_eq] at hk
      subst hk
      exact List.mem_cons_self _ _
    · rw [Bool.not_eq_true] at hk
      rw [hk] at h
      exact List.mem_cons_of_mem _ (ih h)

theorem lookup_of_mem_nodup {α : Type} (m : List (String × α))
    (hnd : (m.map Prod.fst).Nodup) (p : String × α) (hp : p ∈ m) :
    m.lookup p.1 = some p.2 := by
  induction m with
  | nil => exact absurd hp (List.not_mem_nil p)
  | cons q m ih =>
    obtain ⟨qk, qv⟩ := q
    rw [List.map_cons, List.nodup_cons] at hnd
    rcases List.mem_cons.mp hp with rfl | hp2
    · rw [List.lookup_cons]
      simp
    · have hne : (p.1 == qk) = false := by
        rw [beq_eq_false_iff_ne]
        intro hb
        have hmem : p.1 ∈ m.map Prod.fst := List.mem_map_of_mem Prod.fst hp2
        rw [hb] at hmem
        exact hnd.1 hmem
      rw [List.lookup_cons, hne]
      exact ih hnd.2 hp2

theorem lookup_mwpDelete (m : List (String × List String)) (n a k : String) :
    (mwpDelete m n a).lookup k =
      if k = n then
        (m.lookup k).map (fun ps => ps.filter (fun x => !(x == a)))
      else m.lookup k := by
  induction m with
  | nil => simp [mwpDelete]
  | cons p m ih =>
    obtain ⟨pk, pv⟩ := p
    simp only [mwpDelete] at ih ⊢
    by_cases hkp : k = pk
    · subst hkp
      by_cases hkn : k = n
      · subst hkn
        simp [List.lookup_cons]
      · simp [List.lookup_cons, hkn, beq_false_of_ne hkn]
    · by_cases hkn : k = n
      · subst hkn
        have hpn : ¬pk = k := fun hh => hkp hh.symm
        simp [List.lookup_cons, hpn, beq_false_of_ne hkp]
        simpa using ih
      · by_cases hpn : pk = n
        · simp [List.lookup_cons, hpn, beq_false_of_ne hkn,
            beq_false_of_ne (hpn ▸ hkp), hkn]
          simpa [hkn] using ih
        · simp [List.lookup_cons, hpn, beq_false_of_ne hkp, hkn]
          simpa [hkn] using ih

theorem mwpDelete_fst (m : List (String × List String)) (n a : String) :
    (mwpDelete m n a).map Prod.fst = m.map Prod.fst := by
  unfold mwpDelete
  rw [List.map_map]
  apply List.map_congr_left
  intro p _
  simp only [Function.comp_apply]
  split <;> rfl

theorem mwpHas_mwpDelete_self (m : List (String × List String))
    (n a : String) : mwpHas (mwpDelete m n a) n a = false := by
  unfold mwpHas
  rw [lookup_mwpDelete, if_pos rfl]
  cases hl : m.lookup n with
  | none => rfl
  | some ps => simp

theorem mwpHas_mwpDelete_imp (m : List (String × List String))
    (n a k x : String) (h : mwpHas (mwpDelete m n a) k x = true) :
    mwpHas m k x = true := by
  unfold mwpHas at h ⊢
  rw [lookup_mwpDelete] at h
  by_cases hkn : k = n
  · rw [if_pos hkn] at h
    cases hl : m.lookup k with
    | none =>
      rw [hl] at h
      simp at h
    | some ps =>
      rw [hl] at h
      simp at h ⊢
      exact h.1
  · rw [if_neg hkn] at h
    exact h


/-! ## Characterization of `collectPodFailures` -/

theorem buildPodMapsStep_mwp_mem
    (maps : List (String × List String) × List (String × String))
    (node : Node) (p : String × List String)
    (hp : p ∈ (buildPodMapsStep maps node).1) :
    p ∈ maps.1 ∨
      (p.2 = masterStaticPods ∧ p.1 = node.name ∧
        (node.labels.lookup controlPlaneLabel).isSome = true) := by
  simp only [buildPodMapsStep] at hp
  by_cases h1 : (node.labels.lookup controlPlaneLabel).isSome = true
  · rw [if_pos h1] at hp
    rcases mapInsert_mem _ _ _ _ hp with rfl | hp2
    · exact Or.inr ⟨rfl, rfl, h1⟩
    · exact Or.inl hp2
  · rw [if_neg h1] at hp
    exact Or.inl hp

theorem buildPodMapsStep_mwp_nodup
    (maps : List (String × List String) × List (String × String))
    (node : Node) (h : (maps.1.map Prod.fst).Nodup) :
    (((buildPodMapsStep maps node).1).map Prod.fst).Nodup := by
  simp only [buildPodMapsStep]
  by_cases h1 : (node.labels.lookup controlPlaneLabel).isSome = true
  · rw [if_pos h1]
    exact mapInsert_fst_nodup _ _ _ h
  · rw [if_neg h1]
    exact h

theorem foldl_buildPodMapsStep_mwp_mem (nodes : List Node)
    (maps : List (String × List String) × List (String × String))
    (p : String × List String)
    (hp : p ∈ (nodes.foldl buildPodMapsStep maps).1) :
    p ∈ maps.1 ∨
      (p.2 = masterStaticPods ∧ ∃ node ∈ nodes, p.1 = node.name ∧
        (node.labels.lookup controlPlaneLabel).isSome = true) := by
  induction nodes generalizing maps with
  | nil => exact Or.inl hp
  | cons node nodes ih =>
    rw [List.foldl_cons] at hp
    rcases ih _ hp with hp2 | ⟨hps, node2, hn2, hname, hlbl⟩
    · rcases buildPodMapsStep_mwp_mem maps node p hp2 with hp3 | ⟨hps, hname, hlbl⟩
      · exact Or.inl hp3
      · exact Or.inr ⟨hps, node, List.mem_cons_self _ _, hname, hlbl⟩
    · exact Or.inr ⟨hps, node2, List.mem_cons_of_mem _ hn2, hname, hlbl⟩

theorem buildPodMaps_mwp_mem (nodes : List Node) (p : String × List String)
    (hp : p ∈ (buildPodMaps nodes).1) :
    p.2 = masterStaticPods ∧ ∃ node ∈ nodes, p.1 = node.name ∧
      (node.labels.lookup controlPlaneLabel).isSome = true := by
  rcases foldl_buildPodMapsStep_mwp_mem nodes ([], []) p hp with hp2 | hgood
  · exact absurd hp2 (List.not_mem_nil p)
  · exact hgood

theorem buildPodMaps_mwp_nodup (nodes : List Node) :
    (((buildPodMaps nodes).1).map Prod.fst).Nodup := by
  unfold buildPodMaps
  have haux : ∀ (maps : List (String × List String) ×
      List (String × String)), (maps.1.map Prod.fst).Nodup →
      (((nodes.foldl buildPodMapsStep maps).1).map Prod.fst).Nodup := by
    induction nodes with
    | nil => exact fun maps h => h
    | cons node nodes ih =>
      intro maps h
      rw [List.foldl_cons]
      exact ih _ (buildPodMapsStep_mwp_nodup maps node h)
  exact haux ([], []) (by simp)

theorem processPod_mwp_eq (podValidationFilter : Pod → Bool)
    (nodeByAddress : List (String × String))
    (nodeInstanceGroupMapping : List (String × InstanceGroup))
    (st : PFState) (pod : Pod) :
    (processPod podValidationFilter nodeByAddress nodeInstanceGroupMapping
        st pod).masterWithoutPod =
      if (pod.ns == "kube-system" &&
          mwpHas st.masterWithoutPod
            ((nodeByAddress.lookup pod.hostIP).getD "")
            (lookupLabel pod.labels "k8s-app")) = true then
        mwpDelete st.masterWithoutPod
          ((nodeByAddress.lookup pod.hostIP).getD "")
          (lookupLabel pod.labels "k8s-app")
      else st.masterWithoutPod := by
  simp only [processPod]
  split_ifs <;> rfl

theorem processPod_mwpHas_imp (podValidationFilter : Pod → Bool)
    (nodeByAddress : List (String × String))
    (nodeInstanceGroupMapping : List (String × InstanceGroup))
    (st : PFState) (pod : Pod) (k x : String)
    (h : mwpHas (processPod podValidationFilter nodeByAddress
      nodeInstanceGroupMapping st pod).masterWithoutPod k x = true) :
    mwpHas st.masterWithoutPod k x = true := by
  rw [processPod_mwp_eq] at h
  split_ifs at h
  · exact mwpHas_mwpDelete_imp _ _ _ _ _ h
  · exact h

theorem processPod_mwp_matched (podValidationFilter : Pod → Bool)
    (nodeByAddress : List (String × String))
    (nodeInstanceGroupMapping : List (String × InstanceGroup))
    (st : PFState) (pod : Pod) (n a : String)
    (hns : pod.ns = "kube-system")
    (ha : lookupLabel pod.labels "k8s-app" = a)
    (hn : (nodeByAddress.lookup pod.hostIP).getD "" = n) :
    mwpHas (processPod podValidationFilter nodeByAddress
      nodeInstanceGroupMapping st pod).masterWithoutPod n a = false := by
  rw [processPod_mwp_eq]
  by_cases hhas : mwpHas st.masterWithoutPod
      ((nodeByAddress.lookup pod.hostIP).getD "")
      (lookupLabel pod.labels "k8s-app") = true
  · rw [if_pos (by simp [hns, hhas])]
    rw [ha, hn]
    exact mwpHas_mwpDelete_self _ _ _
  · rw [if_neg (by simp [hhas])]
    rw [ha, hn] at hhas
    rw [Bool.not_eq_true] at hhas
    exact hhas

theorem processPod_mwp_entry (podValidationFilter : Pod → Bool)
    (nodeByAddress : List (String × String))
    (nodeInstanceGroupMapping : List (String × InstanceGroup))
    (st : PFState) (pod : Pod) (p : String × List String)
    (hp : p ∈ (processPod podValidationFilter nodeByAddress
      nodeInstanceGroupMapping st pod).masterWithoutPod) :
    ∃ q ∈ st.masterWithoutPod, q.1 = p.1 ∧ ∀ x ∈ p.2, x ∈ q.2 := by
  rw [processPod_mwp_eq] at hp
  split_ifs at hp
  · obtain ⟨q, hq, hfq⟩ := List.mem_map.mp hp
    refine ⟨q, hq, ?_, ?_⟩
    · rw [← hfq]
      split <;> rfl
    · intro x hx
      rw [← hfq] at hx
      revert hx
      split
      · exact fun hx => List.mem_of_mem_filter hx
      · exact fun hx => hx
  · exact ⟨p, hp, rfl, fun x hx => hx⟩

theorem processPod_mwp_fst (podValidationFilter : Pod → Bool)
    (nodeByAddress : List (String × String))
    (nodeInstanceGroupMapping : List (String × InstanceGroup))
    (st : PFState) (pod : Pod) :
    ((processPod podValidationFilter nodeByAddress nodeInstanceGroupMapping
      st pod).masterWithoutPod).map Prod.fst =
      (st.masterWithoutPod).map Prod.fst := by
  rw [processPod_mwp_eq]
  split_ifs
  · exact mwpDelete_fst _ _ _
  · rfl


theorem foldl_processPod_mwpHas_false (podValidationFilter : Pod → Bool)
    (nodeByAddress : List (String × String))
    (nodeInstanceGroupMapping : List (String × InstanceGroup))
    (pods : List Pod) (st : PFState) (k x : String)
    (h : mwpHas st.masterWithoutPod k x = false) :
    mwpHas ((pods.foldl (processPod podValidationFilter nodeByAddress
      nodeInstanceGroupMapping) st)).masterWithoutPod k x = false := by
  induction pods generalizing st with
  | nil => exact h
  | cons pod pods ih =>
    rw [List.foldl_cons]
    apply ih
    rcases Bool.eq_false_or_eq_true (mwpHas (processPod podValidationFilter
      nodeByAddress nodeInstanceGroupMapping st pod).masterWithoutPod k x)
      with h1 | h1
    · have := processPod_mwpHas_imp podValidationFilter nodeByAddress
        nodeInstanceGroupMapping st pod k x h1
      rw [h] at this
      exact Bool.noConfusion this
    · exact h1

theorem foldl_processPod_matched (podValidationFilter : Pod → Bool)
    (nodeByAddress : List (String × String))
    (nodeInstanceGroupMapping : List (String × InstanceGroup))
    (pods : List Pod) (st : PFState) (n a : String)
    (hex : ∃ pod ∈ pods, pod.ns = "kube-system" ∧
      lookupLabel pod.labels "k8s-app" = a ∧
      (nodeByAddress.lookup pod.hostIP).getD "" = n) :
    mwpHas ((pods.foldl (processPod podValidationFilter nodeByAddress
      nodeInstanceGroupMapping) st)).masterWithoutPod n a = false := by
  induction pods generalizing st with
  | nil =>
    obtain ⟨pod, hpod, _⟩ := hex
    exact absurd hpod (List.not_mem_nil pod)
  | cons pod pods ih =>
    rw [List.foldl_cons]
    obtain ⟨pod2, hpod2, hns, ha, hn⟩ := hex
    rcases List.mem_cons.mp hpod2 with rfl | hpod3
    · exact foldl_processPod_mwpHas_false _ _ _ _ _ _ _
        (processPod_mwp_matched _ _ _ _ _ _ _ hns ha hn)
    · exact ih _ ⟨pod2, hpod3, hns, ha, hn⟩

theorem foldl_processPod_mwp_fst (podValidationFilter : Pod → Bool)
    (nodeByAddress : List (String × String))
    (nodeInstanceGroupMapping : List (String × InstanceGroup))
    (pods : List Pod) (st : PFState) :
    (((pods.foldl (processPod podValidationFilter nodeByAddress
      nodeInstanceGroupMapping) st)).masterWithoutPod).map Prod.fst =
      (st.masterWithoutPod).map Prod.fst := by
  induction pods generalizing st with
  | nil => rfl
  | cons pod pods ih =>
    rw [List.foldl_cons, ih, processPod_mwp_fst]

theorem foldl_processPod_mwp_entry (podValidationFilter : Pod → Bool)
    (nodeByAddress : List (String × String))
    (nodeInstanceGroupMapping : List (String × InstanceGroup))
    (pods : List Pod) (st : PFState) (p : String × List String)
    (hp : p ∈ ((pods.foldl (processPod podValidationFilter nodeByAddress
      nodeInstanceGroupMapping) st)).masterWithoutPod) :
    ∃ q ∈ st.masterWithoutPod, q.1 = p.1 ∧ ∀ x ∈ p.2, x ∈ q.2 := by
  induction pods generalizing st with
  | nil => exact ⟨p, hp, rfl, fun x hx => hx⟩
  | cons pod pods ih =>
    rw [List.foldl_cons] at hp
    obtain ⟨q, hq, hq1, hq2⟩ := ih _ hp
    obtain ⟨q2, hq2m, hq21, hq22⟩ := processPod_mwp_entry
      podValidationFilter nodeByAddress nodeInstanceGroupMapping st pod q hq
    exact ⟨q2, hq2m, by rw [hq21, hq1], fun x hx => hq22 x (hq2 x hx)⟩

theorem foldl_processPod_failures (podValidationFilter : Pod → Bool)
    (nodeByAddress : List (String × String))
    (nodeInstanceGroupMapping : List (String × InstanceGroup))
    (pods : List Pod) (st : PFState) :
    ∃ extra,
      ((pods.foldl (processPod podValidationFilter nodeByAddress
        nodeInstanceGroupMapping) st)).vc.Failures =
        st.vc.Failures ++ extra ∧
      ∀ f ∈ extra, f.Kind = "Pod" ∧
        ∀ g, f.InstanceGroup = some g →
          ∃ k, nodeInstanceGroupMapping.lookup k = some g := by
  induction pods generalizing st with
  | nil => exact ⟨[], (List.append_nil _).symm, by simp⟩
  | cons pod pods ih =>
    rw [List.foldl_cons]
    obtain ⟨e2, h2, h2p⟩ := ih (processPod podValidationFilter nodeByAddress
      nodeInstanceGroupMapping st pod)
    rcases processPod_vc_cases podValidationFilter nodeByAddress
        nodeInstanceGroupMapping st pod with hvc | ⟨err, hvc, hkind, _, hig⟩
    · rw [hvc] at h2
      exact ⟨e2, h2, h2p⟩
    · rw [hvc, addError_Failures, List.append_assoc] at h2
      refine ⟨[err] ++ e2, h2, ?_⟩
      intro f hf
      rcases List.mem_append.mp hf with hf | hf
      · simp only [List.mem_singleton] at hf
        subst hf
        refine ⟨hkind, ?_⟩
        intro g hg
        rw [hig] at hg
        split_ifs at hg
        exact ⟨_, hg⟩
      · exact h2p f hf

theorem foldl_staticInner_char
    (nodeInstanceGroupMapping : List (String × InstanceGroup))
    (key : String) (ps : List String) (vc : ValidationCluster) :
    ∃ extra,
      (ps.foldl (fun vc app =>
        vc.addError (missingStaticPodError nodeInstanceGroupMapping key app))
        vc).Failures = vc.Failures ++ extra ∧
      ∀ f ∈ extra, ∃ a ∈ ps,
        f = missingStaticPodError nodeInstanceGroupMapping key a := by
  induction ps generalizing vc with
  | nil => exact ⟨[], (List.append_nil _).symm, by simp⟩
  | cons a ps ih =>
    rw [List.foldl_cons]
    obtain ⟨e2, h2, h2p⟩ := ih
      (vc.addError (missingStaticPodError nodeInstanceGroupMapping key a))
    rw [addError_Failures, List.append_assoc] at h2
    refine ⟨_ ++ e2, h2, ?_⟩
    intro f hf
    rcases List.mem_append.mp hf with hf | hf
    · simp only [List.mem_singleton] at hf
      subst hf
      exact ⟨a, List.mem_cons_self _ _, rfl⟩
    · obtain ⟨a2, ha2, hfa⟩ := h2p f hf
      exact ⟨a2, List.mem_cons_of_mem _ ha2, hfa⟩

theorem missingStaticSweep_char
    (nodeInstanceGroupMapping : List (String × InstanceGroup))
    (mwp : List (String × List String)) (vc : ValidationCluster) :
    ∃ extra,
      (missingStaticSweep nodeInstanceGroupMapping mwp vc).Failures =
        vc.Failures ++ extra ∧
      ∀ f ∈ extra, ∃ p ∈ mwp, ∃ a ∈ p.2,
        f = missingStaticPodError nodeInstanceGroupMapping p.1 a := by
  induction mwp generalizing vc with
  | nil => exact ⟨[], (List.append_nil _).symm, by simp⟩
  | cons p mwp ih =>
    simp only [missingStaticSweep, List.foldl_cons] at *
    obtain ⟨e1, h1, h1p⟩ :=
      foldl_staticInner_char nodeInstanceGroupMapping p.1 p.2 vc
    obtain ⟨e2, h2, h2p⟩ := ih (p.2.foldl (fun vc app =>
      vc.addError (missingStaticPodError nodeInstanceGroupMapping p.1 app))
      vc)
    rw [h1, List.append_assoc] at h2
    refine ⟨e1 ++ e2, h2, ?_⟩
    intro f hf
    rcases List.mem_append.mp hf with hf | hf
    · obtain ⟨a, ha, hfa⟩ := h1p f hf
      exact ⟨p, List.mem_cons_self _ _, a, ha, hfa⟩
    · obtain ⟨p2, hp2, a, ha, hfa⟩ := h2p f hf
      exact ⟨p2, List.mem_cons_of_mem _ hp2, a, ha, hfa⟩

theorem missingStaticSweep_empty
    (nodeInstanceGroupMapping : List (String × InstanceGroup))
    (mwp : List (String × List String)) (vc : ValidationCluster)
    (h : ∀ p ∈ mwp, p.2 = []) :
    missingStaticSweep nodeInstanceGroupMapping mwp vc = vc := by
  induction mwp generalizing vc with
  | nil => rfl
  | cons p mwp ih =>
    simp only [missingStaticSweep, List.foldl_cons] at *
    rw [h p (List.mem_cons_self _ _)]
    exact ih vc (fun p2 hp2 => h p2 (List.mem_cons_of_mem _ hp2))


/-! ## Claim C5 -/

/-- Claim C5: for a control-plane node, once all three mandatory static
workload names are observed in the system namespace with the matching
label on that node during the pod stream, no missing-workload node
failure is recorded for that node — for every caller-supplied workload
filter, because the pending-set removal runs before the filter is
applied. -/
theorem claim_C5 (v : ValidationCluster) (nodes : List Node)
    (nodeInstanceGroupMapping : List (String × InstanceGroup))
    (podValidationFilter : Pod → Bool) (pods : List Pod) (n : Node)
    (hmem : n ∈ nodes)
    (hcp : (n.labels.lookup controlPlaneLabel).isSome = true)
    (hpods : ∀ app ∈ masterStaticPods, ∃ pod ∈ pods,
      pod.ns = "kube-system" ∧ lookupLabel pod.labels "k8s-app" = app ∧
      (((buildPodMaps nodes).2).lookup pod.hostIP).getD "" = n.name) :
    ∃ extra,
      (collectPodFailures v nodes nodeInstanceGroupMapping
        podValidationFilter pods).Failures = v.Failures ++ extra ∧
      ∀ f ∈ extra, ¬(f.Kind = "Node" ∧ f.Name = n.name) := by
  simp only [collectPodFailures]
  obtain ⟨podExtra, hPE, hPEp⟩ := foldl_processPod_failures
    podValidationFilter (buildPodMaps nodes).2 nodeInstanceGroupMapping
    pods { masterWithoutPod := (buildPodMaps nodes).1, vc := v }
  obtain ⟨staticExtra, hSE, hSEp⟩ := missingStaticSweep_char
    nodeInstanceGroupMapping
    (List.foldl (processPod podValidationFilter (buildPodMaps nodes).2
      nodeInstanceGroupMapping)
      { masterWithoutPod := (buildPodMaps nodes).1, vc := v }
      pods).masterWithoutPod
    (List.foldl (processPod podValidationFilter (buildPodMaps nodes).2
      nodeInstanceGroupMapping)
      { masterWithoutPod := (buildPodMaps nodes).1, vc := v } pods).vc
  refine ⟨podExtra ++ staticExtra, ?_, ?_⟩
  · rw [hSE, hPE, List.append_assoc]
  · intro f hf
    rcases List.mem_append.mp hf with hf | hf
    · obtain ⟨hk, _⟩ := hPEp f hf
      intro hcon
      rw [hk] at hcon
      simp at hcon
    · obtain ⟨p, hpmem, a, ha, hfa⟩ := hSEp f hf
      intro hcon
      subst hfa
      have hname : p.1 = n.name := hcon.2
      obtain ⟨q, hq, hq1, hsub⟩ := foldl_processPod_mwp_entry
        podValidationFilter (buildPodMaps nodes).2 nodeInstanceGroupMapping
        pods _ p hpmem
      obtain ⟨hq2, _⟩ := buildPodMaps_mwp_mem nodes q hq
      have ha3 : a ∈ masterStaticPods := by
        rw [← hq2]
        exact hsub a ha
      have hnd : (((List.foldl (processPod podValidationFilter
          (buildPodMaps nodes).2 nodeInstanceGroupMapping)
          { masterWithoutPod := (buildPodMaps nodes).1, vc := v }
          pods)).masterWithoutPod.map Prod.fst).Nodup := by
        rw [foldl_processPod_mwp_fst]
        exact buildPodMaps_mwp_nodup nodes
      have hlk := lookup_of_mem_nodup _ hnd p hpmem
      have hhas : mwpHas (List.foldl (processPod podValidationFilter
          (buildPodMaps nodes).2 nodeInstanceGroupMapping)
          { masterWithoutPod := (buildPodMaps nodes).1, vc := v }
          pods).masterWithoutPod p.1 a = true := by
        unfold mwpHas
        rw [hlk]
        exact List.elem_iff.mpr ha
      rw [hname] at hhas
      have hfalse := foldl_processPod_matched podValidationFilter
        (buildPodMaps nodes).2 nodeInstanceGroupMapping pods
        { masterWithoutPod := (buildPodMaps nodes).1, vc := v } n.name a
        (hpods a ha3)
      rw [hfalse] at hhas
      exact Bool.noConfusion hhas

def nC5 : Node :=
  { name := "cp-1",
    labels := [("node-role.kubernetes.io/control-plane", "")],
    addresses := ["10.0.0.5"],
    conditions := [{ condType := "Ready", status := "True" }] }

def podsC5 : List Pod :=
  [{ ns := "kube-system", name := "kube-apiserver-cp-1",
     labels := [("k8s-app", "kube-apiserver")],
     priorityClassName := "system-node-critical", phase := PodRunning,
     hostIP := "10.0.0.5", containerStatuses := [] },
   { ns := "kube-system", name := "kube-controller-manager-cp-1",
     labels := [("k8s-app", "kube-controller-manager")],
     priorityClassName := "system-node-critical", phase := PodRunning,
     hostIP := "10.0.0.5", containerStatuses := [] },
   { ns := "kube-system", name := "kube-scheduler-cp-1",
     labels := [("k8s-app", "kube-scheduler")],
     priorityClassName := "system-node-critical", phase := PodRunning,
     hostIP := "10.0.0.5", containerStatuses := [] }]

theorem claim_C5_witness :
    ∃ extra,
      (collectPodFailures {} [nC5] [] (fun _ => false) podsC5).Failures =
        ({} : ValidationCluster).Failures ++ extra ∧
      ∀ f ∈ extra, ¬(f.Kind = "Node" ∧ f.Name = nC5.name) :=
  claim_C5 {} [nC5] [] (fun _ => false) podsC5 nC5 (by decide) (by decide)
    (by decide)


/-! ## Claim C6 -/

theorem collectPodFailures_char (v : ValidationCluster) (nodes : List Node)
    (nodeInstanceGroupMapping : List (String × InstanceGroup))
    (podValidationFilter : Pod → Bool) (pods : List Pod) :
    ∃ extra,
      (collectPodFailures v nodes nodeInstanceGroupMapping
        podValidationFilter pods).Failures = v.Failures ++ extra ∧
      ∀ f ∈ extra, (f.Kind = "Pod" ∨ f.Kind = "Node") ∧
        ∀ g, f.InstanceGroup = some g →
          ∃ k, nodeInstanceGroupMapping.lookup k = some g := by
  simp only [collectPodFailures]
  obtain ⟨podExtra, hPE, hPEp⟩ := foldl_processPod_failures
    podValidationFilter (buildPodMaps nodes).2 nodeInstanceGroupMapping
    pods { masterWithoutPod := (buildPodMaps nodes).1, vc := v }
  obtain ⟨staticExtra, hSE, hSEp⟩ := missingStaticSweep_char
    nodeInstanceGroupMapping
    (List.foldl (processPod podValidationFilter (buildPodMaps nodes).2
      nodeInstanceGroupMapping)
      { masterWithoutPod := (buildPodMaps nodes).1, vc := v }
      pods).masterWithoutPod
    (List.foldl (processPod podValidationFilter (buildPodMaps nodes).2
      nodeInstanceGroupMapping)
      { masterWithoutPod := (buildPodMaps nodes).1, vc := v } pods).vc
  refine ⟨podExtra ++ staticExtra, ?_, ?_⟩
  · rw [hSE, hPE, List.append_assoc]
  · intro f hf
    rcases List.mem_append.mp hf with hf | hf
    · obtain ⟨hk, hg⟩ := hPEp f hf
      exact ⟨Or.inl hk, hg⟩
    · obtain ⟨p, _, a, _, hfa⟩ := hSEp f hf
      subst hfa
      refine ⟨Or.inr rfl, ?_⟩
      intro g hg
      exact ⟨p.1, hg⟩

theorem validateAfterDNSCheck_C6 (v : clusterValidatorImpl)
    (inp : ValidateInputs) (gs : List CloudInstanceGroup)
    (ig : InstanceGroup) (r : ValidationCluster)
    (hpred : v.filterInstanceGroups ig = false)
    (hgs : inp.cloudGroups = Except.ok gs)
    (huniqCloud : ∀ cg ∈ gs, ∀ g, cg.InstanceGroup = some g →
      g.name = ig.name → g = ig)
    (huniqGroups : ∀ g ∈ v.allInstanceGroups, g.name = ig.name → g = ig)
    (hrun : validateAfterDNSCheck v inp {} = some (some r, none)) :
    ∀ f ∈ r.Failures, f.InstanceGroup ≠ some ig ∧
      ¬(f.Kind = "InstanceGroup" ∧ f.Name = ig.name) := by
  unfold validateAfterDNSCheck at hrun
  cases hnl : inp.nodeList with
  | error e =>
    rw [hnl] at hrun
    simp at hrun
  | ok nodes =>
    rw [hnl, hgs] at hrun
    dsimp only at hrun
    cases hvn : validateNodes {} gs v.allInstanceGroups
        v.filterInstanceGroups with
    | none =>
      rw [hvn] at hrun
      exact Option.noConfusion hrun
    | some st =>
      rw [hvn] at hrun
      dsimp only at hrun
      cases hps : inp.podStream with
      | error e =>
        rw [hps] at hrun
        injection hrun with h1
        injection h1 with h2 h3
        exact Option.noConfusion h2
      | ok pods =>
        rw [hps] at hrun
        injection hrun with h1
        injection h1 with h2 h3
        injection h2 with h2
        subst h2
        obtain ⟨extraVN, hVN, hVNp, hVNm⟩ := validateNodes_char {} gs
          v.allInstanceGroups v.filterInstanceGroups st hvn
        obtain ⟨extraP, hP, hPp⟩ := collectPodFailures_char st.vc
          st.readyNodes st.nodeInstanceGroupMapping
          v.filterPodsForValidation pods
        intro f hf
        rw [hP, hVN] at hf
        simp only [List.nil_append] at hf
        rcases List.mem_append.mp hf with hf | hf
        · obtain ⟨hk, g, hfrom, hpg, hfg, hname⟩ := hVNp f hf
          constructor
          · intro hcon
            rw [hfg] at hcon
            injection hcon with hcon
            subst hcon
            rw [hpred] at hpg
            exact Bool.noConfusion hpg
          · intro ⟨hKind, hName⟩
            have hgname : g.name = ig.name := by
              rw [← hname hKind, hName]
            have hgig : g = ig := by
              rcases hfrom with ⟨cg, hcg, hlink⟩ | hgrp
              · exact huniqCloud cg hcg g hlink hgname
              · exact huniqGroups g hgrp hgname
            subst hgig
            rw [hpred] at hpg
            exact Bool.noConfusion hpg
        · obtain ⟨hk, hg⟩ := hPp f hf
          constructor
          · intro hcon
            obtain ⟨k, hlk⟩ := hg ig hcon
            have hkmem := lookup_mem _ _ _ hlk
            obtain ⟨g, hfromC, hpg, hpeq⟩ := hVNm (k, ig) hkmem
            simp only at hpeq
            subst hpeq
            rw [hpred] at hpg
            exact Bool.noConfusion hpg
          · intro ⟨hKind, _⟩
            rcases hk with hk | hk <;> (rw [hk] at hKind; simp at hKind)

/-- Claim C6: a DesiredGroup rejected by the scope predicate never appears
in the final report: no failure carries it as its group back-reference and
no instance-group failure carries its name (given that group names are
unique among the DesiredGroups referenced by the run, as the data-model
invariant requires).  The group is skipped both during cloud-group
processing and during the missing-from-cloud-provider sweep. -/
theorem claim_C6 (v : clusterValidatorImpl) (inp : ValidateInputs)
    (gs : List CloudInstanceGroup) (ig : InstanceGroup)
    (r : ValidationCluster)
    (hpred : v.filterInstanceGroups ig = false)
    (hgs : inp.cloudGroups = Except.ok gs)
    (huniqCloud : ∀ cg ∈ gs, ∀ g, cg.InstanceGroup = some g →
      g.name = ig.name → g = ig)
    (huniqGroups : ∀ g ∈ v.allInstanceGroups, g.name = ig.name → g = ig)
    (hrun : Validate v inp = some (some r, none)) :
    ∀ f ∈ r.Failures, f.InstanceGroup ≠ some ig ∧
      ¬(f.Kind = "InstanceGroup" ∧ f.Name = ig.name) := by
  simp only [Validate] at hrun
  split at hrun
  · cases hra : inp.resolvedHostAddrs with
    | error e =>
      rw [hra] at hrun
      injection hrun with h1
      injection h1 with h2 h3
      exact Option.noConfusion h2
    | ok hostAddrs =>
      rw [hra] at hrun
      dsimp only at hrun
      split at hrun
      · injection hrun with h1
        injection h1 with h2 h3
        injection h2 with h2
        subst h2
        intro f hf
        simp only [ValidationCluster.addError, List.nil_append,
          List.mem_singleton] at hf
        subst hf
        exact ⟨by simp, by simp⟩
      · exact validateAfterDNSCheck_C6 v inp gs ig r hpred hgs huniqCloud
          huniqGroups hrun
  · exact validateAfterDNSCheck_C6 v inp gs ig r hpred hgs huniqCloud
      huniqGroups hrun


def igOutC6 : InstanceGroup := { name := "out", role := "Node" }

def igInC6 : InstanceGroup := { name := "in", role := "Node" }

def nodeC6 : Node :=
  { name := "n6", labels := [], addresses := ["10.0.0.6"],
    conditions := [{ condType := "Ready", status := "True" }] }

def memC6 : CloudInstance :=
  { ID := "i6", Status := "Ready", State := "", Node := some nodeC6 }

def gsC6 : List CloudInstanceGroup :=
  [{ InstanceGroup := some igInC6, Ready := [memC6], NeedUpdate := [],
     TargetSize := 2 },
   { InstanceGroup := some igOutC6, Ready := [], NeedUpdate := [],
     TargetSize := 5 }]

def clusterC6 : Cluster :=
  { name := "c6", usesLegacyGossip := true, usesNoneDNS := false,
    externalDNS := none }

def vC6 : clusterValidatorImpl :=
  { cluster := clusterC6, allInstanceGroups := [igInC6, igOutC6],
    filterInstanceGroups := fun g => g.name == "in",
    filterPodsForValidation := fun _ => true }

def inpC6 : ValidateInputs :=
  { resolvedHostAddrs := .ok [], nodeList := .ok [nodeC6],
    cloudGroups := .ok gsC6, podStream := .ok [] }

def vnC6 : ValidationNode :=
  { Name := "n6", Zone := "", Role := "node", Hostname := "", Status := "True" }

def errInC6 : ValidationError :=
  { Kind := "InstanceGroup", Name := "in",
    Message := "InstanceGroup \"in\" did not have enough nodes 1 vs 2",
    InstanceGroup := some igInC6 }

def rC6 : ValidationCluster := { Failures := [errInC6], Nodes := [vnC6] }

theorem claim_C6_witness :
    errInC6.InstanceGroup ≠ some igOutC6 ∧
      ¬(errInC6.Kind = "InstanceGroup" ∧ errInC6.Name = igOutC6.name) :=
  claim_C6 vC6 inpC6 gsC6 igOutC6 rC6 (by decide) rfl
    (by
      intro cg hcg g hlink hname
      simp only [gsC6, List.mem_cons, List.mem_singleton] at hcg
      rcases hcg with rfl | rfl | hF
      · injection hlink with h
        subst h
        simp [igInC6, igOutC6] at hname
      · injection hlink with h
        subst h
        rfl
      · exact absurd hF (List.not_mem_nil cg))
    (by
      intro g hg hname
      simp only [vC6, List.mem_cons, List.mem_singleton] at hg
      rcases hg with rfl | rfl | hF
      · simp [igInC6, igOutC6] at hname
      · rfl
      · exact absurd hF (List.not_mem_nil g))
    (by decide) errInC6 (by decide)


/-! ## No-failure lemmas (for the amended claim C2) -/

theorem processMember_no_failure (ig : InstanceGroup) (st : VNState)
    (m : CloudInstance) (node : Node) (hnode : m.Node = some node)
    (hready : isNodeReady node = true) :
    (processMember ig st m).vc.Failures = st.vc.Failures := by
  simp only [processMember, hnode, hready, Bool.not_true,
    Bool.false_eq_true, if_false, if_true]
  split <;> rfl

theorem foldl_processMember_no_failure (ig : InstanceGroup)
    (ms : List CloudInstance) (st : VNState)
    (h : ∀ m ∈ ms, ∃ node, m.Node = some node ∧ isNodeReady node = true) :
    (ms.foldl (processMember ig) st).vc.Failures = st.vc.Failures := by
  induction ms generalizing st with
  | nil => rfl
  | cons m ms ih =>
    obtain ⟨node, hnode, hready⟩ := h m (List.mem_cons_self _ _)
    rw [List.foldl_cons,
      ih _ (fun m2 hm2 => h m2 (List.mem_cons_of_mem _ hm2)),
      processMember_no_failure ig st m node hnode hready]

theorem processGroup_no_failure (pred : InstanceGroup → Bool)
    (st : VNState) (cg : CloudInstanceGroup) (ig : InstanceGroup)
    (hig : cg.InstanceGroup = some ig)
    (hcond : pred ig = true →
      (¬((notDetachedCount (cg.Ready ++ cg.NeedUpdate) : Int) <
          cg.TargetSize) ∧
       ∀ m ∈ cg.Ready ++ cg.NeedUpdate, ∃ node, m.Node = some node ∧
         isNodeReady node = true)) :
    ∃ st2, processGroup pred st cg = some st2 ∧
      st2.vc.Failures = st.vc.Failures := by
  simp only [processGroup, hig]
  by_cases hp : pred ig
  · obtain ⟨hcount, hmem⟩ := hcond hp
    rw [if_neg (by simp [hp]), if_neg hcount]
    exact ⟨_, rfl, foldl_processMember_no_failure ig _ _ hmem⟩
  · rw [if_pos (by simp [hp])]
    exact ⟨st, rfl, rfl⟩

theorem foldlM_processGroup_no_failure (pred : InstanceGroup → Bool)
    (l : List CloudInstanceGroup) (st : VNState)
    (h : ∀ cg ∈ l, ∃ ig, cg.InstanceGroup = some ig ∧
      (pred ig = true →
        (¬((notDetachedCount (cg.Ready ++ cg.NeedUpdate) : Int) <
            cg.TargetSize) ∧
         ∀ m ∈ cg.Ready ++ cg.NeedUpdate, ∃ node, m.Node = some node ∧
           isNodeReady node = true))) :
    ∃ st2, l.foldlM (processGroup pred) st = some st2 ∧
      st2.vc.Failures = st.vc.Failures := by
  induction l generalizing st with
  | nil => exact ⟨st, rfl, rfl⟩
  | cons cg l ih =>
    obtain ⟨ig, hig, hcond⟩ := h cg (List.mem_cons_self _ _)
    obtain ⟨st1, hst1, hst1F⟩ := processGroup_no_failure pred st cg ig hig
      hcond
    obtain ⟨st2, hst2, hst2F⟩ :=
      ih st1 (fun cg2 hcg2 => h cg2 (List.mem_cons_of_mem _ hcg2))
    refine ⟨st2, ?_, by rw [hst2F, hst1F]⟩
    rw [List.foldlM_cons, hst1]
    simpa using hst2

theorem validateNodes_no_failure (gs : List CloudInstanceGroup)
    (groups : List InstanceGroup) (pred : InstanceGroup → Bool)
    (hall : ∀ cg ∈ gs, ∃ ig, cg.InstanceGroup = some ig ∧
      (pred ig = true →
        (¬((notDetachedCount (cg.Ready ++ cg.NeedUpdate) : Int) <
            cg.TargetSize) ∧
         ∀ m ∈ cg.Ready ++ cg.NeedUpdate, ∃ node, m.Node = some node ∧
           isNodeReady node = true)))
    (hseen : ∀ ig ∈ groups, pred ig = true →
      ∃ cg ∈ gs, ∃ g, cg.InstanceGroup = some g ∧ pred g = true ∧
        g.name = ig.name) :
    ∃ st2, validateNodes {} gs groups pred = some st2 ∧
      st2.vc.Failures = [] := by
  obtain ⟨st1, hst1, hst1F⟩ := foldlM_processGroup_no_failure pred gs
    ({ vc := {}, groupsSeen := [], readyNodes := [],
       nodeInstanceGroupMapping := [] } : VNState) hall
  obtain ⟨-, -, hcontains, -⟩ := foldlM_processGroup_char pred gs _ st1 hst1
  have hsweep : missingGroupsSweep pred groups st1 = st1 := by
    apply missingGroupsSweep_all_seen
    intro ig hig hp
    obtain ⟨cg, hcg, g, hlink, hpg, hname⟩ := hseen ig hig hp
    have := hcontains cg hcg g hlink hpg
    rw [hname] at this
    exact List.elem_iff.mpr this
  refine ⟨st1, ?_, hst1F⟩
  unfold validateNodes
  rw [hst1]
  dsimp only
  rw [hsweep]

theorem processPod_no_failure (podValidationFilter : Pod → Bool)
    (nodeByAddress : List (String × String))
    (nodeInstanceGroupMapping : List (String × InstanceGroup))
    (st : PFState) (pod : Pod)
    (h : podValidationFilter pod = true →
      (pod.priorityClassName = "system-cluster-critical" ∨
       pod.priorityClassName = "system-node-critical") →
      pod.phase ≠ PodSucceeded →
      (pod.phase ≠ PodPending ∧ pod.phase ≠ PodUnknown ∧
       ∀ c ∈ pod.containerStatuses, c.ready = true)) :
    (processPod podValidationFilter nodeByAddress nodeInstanceGroupMapping
      st pod).vc = st.vc := by
  simp only [processPod]
  split_ifs <;> try rfl
  all_goals exfalso
  all_goals (
    obtain ⟨hnp, hnu, hall⟩ := h (by simp_all) (by simp_all) (by simp_all))
  all_goals simp_all [List.filter_eq_nil, List.length_eq_zero]

theorem foldl_processPod_no_failure (podValidationFilter : Pod → Bool)
    (nodeByAddress : List (String × String))
    (nodeInstanceGroupMapping : List (String × InstanceGroup))
    (pods : List Pod) (st : PFState)
    (h : ∀ pod ∈ pods, podValidationFilter pod = true →
      (pod.priorityClassName = "system-cluster-critical" ∨
       pod.priorityClassName = "system-node-critical") →
      pod.phase ≠ PodSucceeded →
      (pod.phase ≠ PodPending ∧ pod.phase ≠ PodUnknown ∧
       ∀ c ∈ pod.containerStatuses, c.ready = true)) :
    ((pods.foldl (processPod podValidationFilter nodeByAddress
      nodeInstanceGroupMapping) st)).vc = st.vc := by
  induction pods generalizing st with
  | nil => rfl
  | cons pod pods ih =>
    rw [List.foldl_cons,
      ih _ (fun p2 hp2 => h p2 (List.mem_cons_of_mem _ hp2)),
      processPod_no_failure podValidationFilter nodeByAddress
        nodeInstanceGroupMapping st pod (h pod (List.mem_cons_self _ _))]

theorem collectPodFailures_no_failure (vcIn : ValidationCluster)
    (nodes : List Node)
    (nodeInstanceGroupMapping : List (String × InstanceGroup))
    (podValidationFilter : Pod → Bool) (pods : List Pod)
    (hpods : ∀ pod ∈ pods, podValidationFilter pod = true →
      (pod.priorityClassName = "system-cluster-critical" ∨
       pod.priorityClassName = "system-node-critical") →
      pod.phase ≠ PodSucceeded →
      (pod.phase ≠ PodPending ∧ pod.phase ≠ PodUnknown ∧
       ∀ c ∈ pod.containerStatuses, c.ready = true))
    (hstatic : ∀ node ∈ nodes,
      (node.labels.lookup controlPlaneLabel).isSome = true →
      ∀ app ∈ masterStaticPods, ∃ pod ∈ pods,
        pod.ns = "kube-system" ∧ lookupLabel pod.labels "k8s-app" = app ∧
        (((buildPodMaps nodes).2).lookup pod.hostIP).getD "" = node.name) :
    collectPodFailures vcIn nodes nodeInstanceGroupMapping
      podValidationFilter pods = vcIn := by
  simp only [collectPodFailures]
  have hempty : ∀ p ∈ (List.foldl (processPod podValidationFilter
      (buildPodMaps nodes).2 nodeInstanceGroupMapping)
      { masterWithoutPod := (buildPodMaps nodes).1, vc := vcIn }
      pods).masterWithoutPod, p.2 = [] := by
    intro p hp
    obtain ⟨q, hq, hq1, hsub⟩ := foldl_processPod_mwp_entry
      podValidationFilter (buildPodMaps nodes).2 nodeInstanceGroupMapping
      pods _ p hp
    obtain ⟨hq2, node, hnode, hqname, hlbl⟩ := buildPodMaps_mwp_mem nodes q hq
    rw [List.eq_nil_iff_forall_not_mem]
    intro a ha
    have ha3 : a ∈ masterStaticPods := by
      rw [← hq2]
      exact hsub a ha
    have hnd : (((List.foldl (processPod podValidationFilter
        (buildPodMaps nodes).2 nodeInstanceGroupMapping)
        { masterWithoutPod := (buildPodMaps nodes).1, vc := vcIn }
        pods)).masterWithoutPod.map Prod.fst).Nodup := by
      rw [foldl_processPod_mwp_fst]
      exact buildPodMaps_mwp_nodup nodes
    have hlk := lookup_of_mem_nodup _ hnd p hp
    have hhas : mwpHas (List.foldl (processPod podValidationFilter
        (buildPodMaps nodes).2 nodeInstanceGroupMapping)
        { masterWithoutPod := (buildPodMaps nodes).1, vc := vcIn }
        pods).masterWithoutPod p.1 a = true := by
      unfold mwpHas
      rw [hlk]
      exact List.elem_iff.mpr ha
    have hmatch := foldl_processPod_matched podValidationFilter
      (buildPodMaps nodes).2 nodeInstanceGroupMapping pods
      { masterWithoutPod := (buildPodMaps nodes).1, vc := vcIn }
      node.name a (hstatic node hnode hlbl a ha3)
    rw [← hqname, hq1] at hmatch
    rw [hmatch] at hhas
    exact Bool.noConfusion hhas
  rw [missingStaticSweep_empty _ _ _ hempty,
    foldl_processPod_no_failure podValidationFilter (buildPodMaps nodes).2
      nodeInstanceGroupMapping pods _ hpods]


/-! ## Claim C1 -/

def igA1 : InstanceGroup := { name := "alpha", role := "Node" }

def igB1 : InstanceGroup := { name := "beta", role := "Node" }

def cgA1 : CloudInstanceGroup :=
  { InstanceGroup := some igA1, Ready := [], NeedUpdate := [],
    TargetSize := 1 }

def cgB1 : CloudInstanceGroup :=
  { InstanceGroup := some igB1, Ready := [], NeedUpdate := [],
    TargetSize := 1 }

def clusterC1 : Cluster :=
  { name := "c1", usesLegacyGossip := true, usesNoneDNS := false,
    externalDNS := none }

def vC1 : clusterValidatorImpl :=
  { cluster := clusterC1, allInstanceGroups := [igA1, igB1],
    filterInstanceGroups := fun _ => true,
    filterPodsForValidation := fun _ => true }

def inpC1a : ValidateInputs :=
  { resolvedHostAddrs := .ok [], nodeList := .ok [],
    cloudGroups := .ok [cgA1, cgB1], podStream := .ok [] }

def inpC1b : ValidateInputs :=
  { resolvedHostAddrs := .ok [], nodeList := .ok [],
    cloudGroups := .ok [cgB1, cgA1], podStream := .ok [] }

/-- Claim C1, counterexample: two runs of `Validate` on the same input
snapshots — the same cloud-group map (the two cloud-group lists are
permutations of each other, i.e. equal as maps), same nodes, same pod
stream — produce different failure lists, because the Go map iteration
order at `for _, cloudGroup := range cloudGroups` is not fixed by the
map value.  So the failure list is not stable across runs as the claim
states. -/
theorem claim_C1_counterexample :
    List.Perm [cgA1, cgB1] [cgB1, cgA1] ∧
    (Validate vC1 inpC1a).map
        (fun res => res.1.map ValidationCluster.Failures) ≠
      (Validate vC1 inpC1b).map
        (fun res => res.1.map ValidationCluster.Failures) := by
  constructor
  · exact List.Perm.swap cgB1 cgA1 []
  · decide

theorem validateAfterDNSCheck_decomposition (v : clusterValidatorImpl)
    (inp : ValidateInputs) (r : ValidationCluster)
    (hrun : validateAfterDNSCheck v inp {} = some (some r, none)) :
    ∃ groupExtra podExtra staticExtra,
      r.Failures = groupExtra ++ podExtra ++ staticExtra ∧
      (∀ f ∈ groupExtra, f.Kind = "InstanceGroup" ∨ f.Kind = "Machine" ∨
        f.Kind = "Node") ∧
      (∀ f ∈ podExtra, f.Kind = "Pod") ∧
      (∀ f ∈ staticExtra, f.Kind = "Node") := by
  unfold validateAfterDNSCheck at hrun
  cases hnl : inp.nodeList with
  | error e =>
    rw [hnl] at hrun
    injection hrun with h1
    injection h1 with h2 h3
    exact Option.noConfusion h2
  | ok nodes =>
    rw [hnl] at hrun
    cases hgs : inp.cloudGroups with
    | error e =>
      rw [hgs] at hrun
      injection hrun with h1
      injection h1 with h2 h3
      exact Option.noConfusion h2
    | ok gs =>
      rw [hgs] at hrun
      dsimp only at hrun
      cases hvn : validateNodes {} gs v.allInstanceGroups
          v.filterInstanceGroups with
      | none =>
        rw [hvn] at hrun
        exact Option.noConfusion hrun
      | some st =>
        rw [hvn] at hrun
        dsimp only at hrun
        cases hps : inp.podStream with
        | error e =>
          rw [hps] at hrun
          injection hrun with h1
          injection h1 with h2 h3
          exact Option.noConfusion h2
        | ok pods =>
          rw [hps] at hrun
          injection hrun with h1
          injection h1 with h2 h3
          injection h2 with h2
          subst h2
          obtain ⟨eVN, hVN, hVNp, -⟩ := validateNodes_char {} gs
            v.allInstanceGroups v.filterInstanceGroups st hvn
          have hVN2 : st.vc.Failures = eVN := by simpa using hVN
          obtain ⟨podE, hPE, hPEp⟩ := foldl_processPod_failures
            v.filterPodsForValidation (buildPodMaps st.readyNodes).2
            st.nodeInstanceGroupMapping pods
            { masterWithoutPod := (buildPodMaps st.readyNodes).1,
              vc := st.vc }
          obtain ⟨staticE, hSE, hSEp⟩ := missingStaticSweep_char
            st.nodeInstanceGroupMapping
            (List.foldl (processPod v.filterPodsForValidation
              (buildPodMaps st.readyNodes).2 st.nodeInstanceGroupMapping)
              { masterWithoutPod := (buildPodMaps st.readyNodes).1,
                vc := st.vc } pods).masterWithoutPod
            (List.foldl (processPod v.filterPodsForValidation
              (buildPodMaps st.readyNodes).2 st.nodeInstanceGroupMapping)
              { masterWithoutPod := (buildPodMaps st.readyNodes).1,
                vc := st.vc } pods).vc
          refine ⟨eVN, podE, staticE, ?_, ?_, ?_, ?_⟩
          · show (collectPodFailures st.vc st.readyNodes
              st.nodeInstanceGroupMapping v.filterPodsForValidation
              pods).Failures = eVN ++ podE ++ staticE
            simp only [collectPodFailures]
            rw [hSE, hPE]
            dsimp only
            rw [hVN2, List.append_assoc]
          · exact fun f hf => (hVNp f hf).1
          · exact fun f hf => (hPEp f hf).1
          · intro f hf
            obtain ⟨p, -, a, -, hfa⟩ := hSEp f hf
            subst hfa
            rfl


theorem dns_singleton_decomposition (vc : ValidationCluster)
    (e : ValidationError) (hvc : vc.Failures = [e]) (hK : e.Kind = "dns") :
    ∃ dnsExtra groupExtra podExtra staticExtra,
      vc.Failures = dnsExtra ++ groupExtra ++ podExtra ++ staticExtra ∧
      (∀ f ∈ dnsExtra, f.Kind = "dns") ∧
      (∀ f ∈ groupExtra, f.Kind = "InstanceGroup" ∨ f.Kind = "Machine" ∨
        f.Kind = "Node") ∧
      (∀ f ∈ podExtra, f.Kind = "Pod") ∧
      (∀ f ∈ staticExtra, f.Kind = "Node") := by
  refine ⟨[e], [], [], [], by rw [hvc]; rfl, ?_, by simp, by simp, by simp⟩
  intro f hf
  simp only [List.mem_singleton] at hf
  subst hf
  exact hK

/-- One admissible per-run iteration order of a Go map held as the assoc
list `b`: Go's `range` visits the entries in an order randomized per run
(`a` lists them in some permutation), and each entry's inner pending
set, itself a Go map, is likewise visited in a per-run order
(a permutation of its elements). -/
def MWPerm (a b : List (String × List String)) : Prop :=
  ∃ c, List.Perm a c ∧
    List.Forall₂ (fun p q : String × List String =>
      p.1 = q.1 ∧ List.Perm p.2 q.2) c b

/-- The failures the final sweep of `collectPodFailures` (lines 293-302)
records when the `masterWithoutPod` map presents its entries in the
order `ord`: one node failure per (control-plane node, still-pending
static pod) pair, in presentation order. -/
def missingStaticFailuresOf
    (nodeInstanceGroupMapping : List (String × InstanceGroup)) :
    List (String × List String) → List ValidationError
  | [] => []
  | p :: t =>
    p.2.map (fun app =>
      missingStaticPodError nodeInstanceGroupMapping p.1 app) ++
    missingStaticFailuresOf nodeInstanceGroupMapping t

/-- `collectPodFailures` with the iteration order of its internal
`masterWithoutPod` Go map made explicit: the final sweep's
`for node, nodeMap := range masterWithoutPod` (line 293) and the inner
`for app := range nodeMap` (line 294) visit a per-run randomized order,
supplied here as `ord`; the admissible orders are the `MWPerm`
reorderings of the map contents. -/
def collectPodFailuresOrd (v : ValidationCluster) (nodes : List Node)
    (nodeInstanceGroupMapping : List (String × InstanceGroup))
    (podValidationFilter : Pod → Bool) (pods : List Pod)
    (ord : List (String × List String)) : ValidationCluster :=
  let maps := buildPodMaps nodes
  let st := pods.foldl
    (processPod podValidationFilter maps.2 nodeInstanceGroupMapping)
    { masterWithoutPod := maps.1, vc := v }
  missingStaticSweep nodeInstanceGroupMapping ord st.vc

/-- `validateAfterDNSCheck` with the sweep iteration order of
`collectPodFailuresOrd` threaded through. -/
def validateAfterDNSCheckOrd (v : clusterValidatorImpl)
    (inp : ValidateInputs) (validation : ValidationCluster)
    (ord : List (String × List String)) :
    Option (Option ValidationCluster × Option String) :=
  match inp.nodeList with
  | .error e => some (none, some ("error listing nodes: " ++ e))
  | .ok _ =>
    match inp.cloudGroups with
    | .error e => some (none, some e)
    | .ok cloudGroups =>
      match validateNodes validation cloudGroups v.allInstanceGroups
          v.filterInstanceGroups with
      | none => none
      | some st =>
        match inp.podStream with
        | .error e =>
          some (none, some ("cannot get pod health for " ++
            goQuote v.cluster.name ++ ": " ++ e))
        | .ok pods =>
          some (some (collectPodFailuresOrd st.vc st.readyNodes
            st.nodeInstanceGroupMapping v.filterPodsForValidation pods ord),
            none)

/-- `Validate` with the per-run iteration order of the internal
`masterWithoutPod` map of the final static-pod sweep made an explicit
parameter: the Go runtime randomizes that order on every run and no
input presentation fixes it, so one program run corresponds to
`ValidateOrd` at some admissible `ord` (`Validate` itself is the run
that visits the map in its insertion-order presentation). -/
def ValidateOrd (v : clusterValidatorImpl) (inp : ValidateInputs)
    (ord : List (String × List String)) :
    Option (Option ValidationCluster × Option String) :=
  let validation : ValidationCluster := {}
  if !v.cluster.usesLegacyGossip && !v.cluster.usesNoneDNS then
    let dnsProvider :=
      match v.cluster.externalDNS with
      | some p =>
        if p == ExternalDNSProviderExternalDNS then
          ExternalDNSProviderExternalDNS
        else ExternalDNSProviderDNSController
      | none => ExternalDNSProviderDNSController
    match inp.resolvedHostAddrs with
    | .error e => some (none, some e)
    | .ok hostAddrs =>
      let hasPlaceHolderIPAddress := hasPlaceHolderIP hostAddrs
      if !(hasPlaceHolderIPAddress == "") then
        let err : ValidationError :=
          { Kind := "dns", Name := "apiserver",
            Message := placeholderMessage dnsProvider hasPlaceHolderIPAddress,
            InstanceGroup := none }
        some (some (validation.addError err), none)
      else
        validateAfterDNSCheckOrd v inp validation ord
  else
    validateAfterDNSCheckOrd v inp validation ord

/-- The contents of the internal `masterWithoutPod` map at the start of
the final sweep of `collectPodFailures`, for a run of the post-DNS tail
that reaches the sweep (`none` when the run errors or panics earlier).
A concrete run's sweep visits these entries in some `MWPerm`
reordering. -/
def validateAfterDNSCheckMWP (v : clusterValidatorImpl)
    (inp : ValidateInputs) : Option (List (String × List String)) :=
  match inp.nodeList with
  | .error _ => none
  | .ok _ =>
    match inp.cloudGroups with
    | .error _ => none
    | .ok cloudGroups =>
      match validateNodes {} cloudGroups v.allInstanceGroups
          v.filterInstanceGroups with
      | none => none
      | some st =>
        match inp.podStream with
        | .error _ => none
        | .ok pods =>
          some ((pods.foldl
            (processPod v.filterPodsForValidation
              (buildPodMaps st.readyNodes).2 st.nodeInstanceGroupMapping)
            { masterWithoutPod := (buildPodMaps st.readyNodes).1,
              vc := st.vc }).masterWithoutPod)

/-- The contents of the internal `masterWithoutPod` map at the sweep
point of a `Validate` run, `none` when the run never reaches the sweep
(DNS short-circuit, collaborator error, or nil-link panic). -/
def ValidateMWP (v : clusterValidatorImpl) (inp : ValidateInputs) :
    Option (List (String × List String)) :=
  if !v.cluster.usesLegacyGossip && !v.cluster.usesNoneDNS then
    match inp.resolvedHostAddrs with
    | .error _ => none
    | .ok hostAddrs =>
      if !(hasPlaceHolderIP hostAddrs == "") then none
      else validateAfterDNSCheckMWP v inp
  else validateAfterDNSCheckMWP v inp

theorem foldl_staticInner_failures
    (m : List (String × InstanceGroup)) (key : String)
    (ps : List String) (vc : ValidationCluster) :
    (ps.foldl (fun vc app =>
      vc.addError (missingStaticPodError m key app)) vc).Failures =
      vc.Failures ++ ps.map (fun app => missingStaticPodError m key app) := by
  induction ps generalizing vc with
  | nil => simp
  | cons a t ih =>
    rw [List.foldl_cons, ih, addError_Failures, List.append_assoc]
    rfl

theorem missingStaticSweep_failures
    (m : List (String × InstanceGroup))
    (ord : List (String × List String)) (vc : ValidationCluster) :
    (missingStaticSweep m ord vc).Failures =
      vc.Failures ++ missingStaticFailuresOf m ord := by
  induction ord generalizing vc with
  | nil => simp [missingStaticSweep, missingStaticFailuresOf]
  | cons p t ih =>
    simp only [missingStaticSweep, List.foldl_cons] at *
    rw [ih, foldl_staticInner_failures, List.append_assoc]
    rfl

theorem missingStaticFailuresOf_kind
    (m : List (String × InstanceGroup))
    (ord : List (String × List String)) :
    ∀ f ∈ missingStaticFailuresOf m ord, f.Kind = "Node" := by
  induction ord with
  | nil =>
    intro f hf
    simp only [missingStaticFailuresOf] at hf
    exact absurd hf (List.not_mem_nil f)
  | cons p t ih =>
    intro f hf
    simp only [missingStaticFailuresOf] at hf
    rcases List.mem_append.mp hf with hf | hf
    · obtain ⟨a, -, hfa⟩ := List.mem_map.mp hf
      subst hfa
      rfl
    · exact ih f hf

theorem missingStaticFailuresOf_perm_entries
    (m : List (String × InstanceGroup))
    {a b : List (String × List String)} (h : List.Perm a b) :
    List.Perm (missingStaticFailuresOf m a) (missingStaticFailuresOf m b) := by
  induction h with
  | nil => exact List.Perm.refl _
  | cons x h ih =>
    simp only [missingStaticFailuresOf]
    exact List.Perm.append_left _ ih
  | swap x y t =>
    simp only [missingStaticFailuresOf]
    rw [← List.append_assoc, ← List.append_assoc]
    exact List.Perm.append_right _ List.perm_append_comm
  | trans h1 h2 ih1 ih2 => exact ih1.trans ih2

theorem missingStaticFailuresOf_perm_inner
    (m : List (String × InstanceGroup))
    {c b : List (String × List String)}
    (h : List.Forall₂ (fun p q : String × List String =>
      p.1 = q.1 ∧ List.Perm p.2 q.2) c b) :
    List.Perm (missingStaticFailuresOf m c) (missingStaticFailuresOf m b) := by
  induction h with
  | nil => exact List.Perm.refl _
  | cons hpq hrest ih =>
    simp only [missingStaticFailuresOf]
    refine List.Perm.append ?_ ih
    rw [hpq.1]
    exact hpq.2.map _

theorem MWPerm_failures_perm (m : List (String × InstanceGroup))
    {a b : List (String × List String)} (h : MWPerm a b) :
    List.Perm (missingStaticFailuresOf m a) (missingStaticFailuresOf m b) := by
  obtain ⟨c, hac, hcb⟩ := h
  exact (missingStaticFailuresOf_perm_entries m hac).trans
    (missingStaticFailuresOf_perm_inner m hcb)

theorem validateAfterDNSCheckOrd_pair (v : clusterValidatorImpl)
    (inp : ValidateInputs) (mwp ord1 ord2 : List (String × List String))
    (r1 r2 : ValidationCluster)
    (hm : validateAfterDNSCheckMWP v inp = some mwp)
    (h1 : validateAfterDNSCheckOrd v inp {} ord1 = some (some r1, none))
    (h2 : validateAfterDNSCheckOrd v inp {} ord2 = some (some r2, none)) :
    ∃ groupE podE mapping,
      r1.Failures =
        groupE ++ podE ++ missingStaticFailuresOf mapping ord1 ∧
      r2.Failures =
        groupE ++ podE ++ missingStaticFailuresOf mapping ord2 ∧
      (∀ f ∈ groupE, f.Kind = "InstanceGroup" ∨ f.Kind = "Machine" ∨
        f.Kind = "Node") ∧
      (∀ f ∈ podE, f.Kind = "Pod") := by
  unfold validateAfterDNSCheckOrd at h1 h2
  unfold validateAfterDNSCheckMWP at hm
  cases hnl : inp.nodeList with
  | error e =>
    rw [hnl] at hm
    exact Option.noConfusion hm
  | ok nodes =>
    rw [hnl] at hm h1 h2
    dsimp only at hm h1 h2
    cases hgs : inp.cloudGroups with
    | error e =>
      rw [hgs] at hm
      exact Option.noConfusion hm
    | ok gs =>
      rw [hgs] at hm h1 h2
      dsimp only at hm h1 h2
      cases hvn : validateNodes {} gs v.allInstanceGroups
          v.filterInstanceGroups with
      | none =>
        rw [hvn] at hm
        exact Option.noConfusion hm
      | some st =>
        rw [hvn] at hm h1 h2
        dsimp only at hm h1 h2
        cases hps : inp.podStream with
        | error e =>
          rw [hps] at hm
          exact Option.noConfusion hm
        | ok pods =>
          rw [hps] at hm h1 h2
          dsimp only at hm h1 h2
          injection hm with hm
          injection h1 with h1
          injection h1 with h1a h1b
          injection h1a with h1a
          injection h2 with h2
          injection h2 with h2a h2b
          injection h2a with h2a
          subst hm
          subst h1a
          subst h2a
          obtain ⟨eVN, hVN, hVNp, -⟩ := validateNodes_char {} gs
            v.allInstanceGroups v.filterInstanceGroups st hvn
          have hVN2 : st.vc.Failures = eVN := by simpa using hVN
          obtain ⟨podE, hPE, hPEp⟩ := foldl_processPod_failures
            v.filterPodsForValidation (buildPodMaps st.readyNodes).2
            st.nodeInstanceGroupMapping pods
            { masterWithoutPod := (buildPodMaps st.readyNodes).1,
              vc := st.vc }
          refine ⟨eVN, podE, st.nodeInstanceGroupMapping, ?_, ?_,
            fun f hf => (hVNp f hf).1, fun f hf => (hPEp f hf).1⟩
          · simp only [collectPodFailuresOrd]
            rw [missingStaticSweep_failures, hPE, hVN2]
          · simp only [collectPodFailuresOrd]
            rw [missingStaticSweep_failures, hPE, hVN2]

/-- Claim C1 (amended): the claim as stated fails because Go map
iteration order is not stable across runs: the cloud-group map iterated
by `validateNodes` (line 312, refuted by the counterexample) and, within
a single run, the internal `masterWithoutPod` map of the final
static-pod sweep (lines 293-294), whose order no input presentation
fixes.  Amended by what does hold: for two runs of `Validate` on the
same input snapshot in the same presentation order, each sweeping the
internal map in its own admissible per-run order, the produced failure
lists are permutations of each other; both decompose in insertion order
as dns findings, then group/member findings, then per-pod findings,
then missing-static-workload findings, the runs agree exactly on the
first three segments, and the two missing-static-workload segments are
permutations of each other. -/
theorem claim_C1 (v : clusterValidatorImpl) (inp : ValidateInputs)
    (mwp ord1 ord2 : List (String × List String))
    (r1 r2 : ValidationCluster)
    (hm : ValidateMWP v inp = some mwp)
    (ho1 : MWPerm ord1 mwp) (ho2 : MWPerm ord2 mwp)
    (h1 : ValidateOrd v inp ord1 = some (some r1, none))
    (h2 : ValidateOrd v inp ord2 = some (some r2, none)) :
    List.Perm r1.Failures r2.Failures ∧
    ∃ dnsE groupE podE static1 static2,
      r1.Failures = dnsE ++ groupE ++ podE ++ static1 ∧
      r2.Failures = dnsE ++ groupE ++ podE ++ static2 ∧
      List.Perm static1 static2 ∧
      (∀ f ∈ dnsE, f.Kind = "dns") ∧
      (∀ f ∈ groupE, f.Kind = "InstanceGroup" ∨ f.Kind = "Machine" ∨
        f.Kind = "Node") ∧
      (∀ f ∈ podE, f.Kind = "Pod") ∧
      (∀ f ∈ static1, f.Kind = "Node") ∧
      (∀ f ∈ static2, f.Kind = "Node") := by
  have hg : validateAfterDNSCheckMWP v inp = some mwp ∧
      validateAfterDNSCheckOrd v inp {} ord1 = some (some r1, none) ∧
      validateAfterDNSCheckOrd v inp {} ord2 = some (some r2, none) := by
    simp only [ValidateOrd] at h1 h2
    simp only [ValidateMWP] at hm
    split at hm
    case isTrue hcond =>
      rw [if_pos hcond] at h1 h2
      cases hra : inp.resolvedHostAddrs with
      | error e =>
        rw [hra] at hm
        exact Option.noConfusion hm
      | ok hostAddrs =>
        rw [hra] at hm h1 h2
        dsimp only at hm h1 h2
        split at hm
        case isTrue hph => exact Option.noConfusion hm
        case isFalse hph =>
          rw [if_neg hph] at h1 h2
          exact ⟨hm, h1, h2⟩
    case isFalse hcond =>
      rw [if_neg hcond] at h1 h2
      exact ⟨hm, h1, h2⟩
  obtain ⟨hm2, h1d, h2d⟩ := hg
  obtain ⟨groupE, podE, mapping, hfe1, hfe2, hgk, hpk⟩ :=
    validateAfterDNSCheckOrd_pair v inp mwp ord1 ord2 r1 r2 hm2 h1d h2d
  have hsperm : List.Perm (missingStaticFailuresOf mapping ord1)
      (missingStaticFailuresOf mapping ord2) :=
    (MWPerm_failures_perm mapping ho1).trans
      (MWPerm_failures_perm mapping ho2).symm
  refine ⟨?_, [], groupE, podE, missingStaticFailuresOf mapping ord1,
    missingStaticFailuresOf mapping ord2, by simpa using hfe1,
    by simpa using hfe2, hsperm, by simp, hgk, hpk,
    missingStaticFailuresOf_kind mapping ord1,
    missingStaticFailuresOf_kind mapping ord2⟩
  rw [hfe1, hfe2]
  exact List.Perm.append_left _ hsperm

def igC1w : InstanceGroup := { name := "cp", role := "ControlPlane" }

def nodeC1a : Node :=
  { name := "cp1", labels := [(controlPlaneLabel, "")],
    addresses := ["10.0.0.1"],
    conditions := [{ condType := "Ready", status := "True" }] }

def nodeC1b : Node :=
  { name := "cp2", labels := [(controlPlaneLabel, "")],
    addresses := ["10.0.0.2"],
    conditions := [{ condType := "Ready", status := "True" }] }

def memC1a : CloudInstance :=
  { ID := "i-1", Status := "", State := "", Node := some nodeC1a }

def memC1b : CloudInstance :=
  { ID := "i-2", Status := "", State := "", Node := some nodeC1b }

def cgC1w : CloudInstanceGroup :=
  { InstanceGroup := some igC1w, Ready := [memC1a, memC1b],
    NeedUpdate := [], TargetSize := 2 }

def vC1w : clusterValidatorImpl :=
  { cluster := clusterC1, allInstanceGroups := [igC1w],
    filterInstanceGroups := fun _ => true,
    filterPodsForValidation := fun _ => true }

def inpC1w : ValidateInputs :=
  { resolvedHostAddrs := .ok [], nodeList := .ok [nodeC1a, nodeC1b],
    cloudGroups := .ok [cgC1w], podStream := .ok [] }

def mwpC1 : List (String × List String) :=
  [("cp2", ["kube-apiserver", "kube-controller-manager", "kube-scheduler"]),
   ("cp1", ["kube-apiserver", "kube-controller-manager", "kube-scheduler"])]

def ordC1a : List (String × List String) := mwpC1

def ordC1b : List (String × List String) :=
  [("cp1", ["kube-scheduler", "kube-apiserver", "kube-controller-manager"]),
   ("cp2", ["kube-apiserver", "kube-controller-manager", "kube-scheduler"])]

def cMidC1 : List (String × List String) :=
  [("cp2", ["kube-apiserver", "kube-controller-manager", "kube-scheduler"]),
   ("cp1", ["kube-scheduler", "kube-apiserver", "kube-controller-manager"])]

def missC1 (nodeName app : String) : ValidationError :=
  { Kind := "Node", Name := nodeName,
    Message := "control-plane node " ++ goQuote nodeName ++
      " is missing " ++ app ++ " pod",
    InstanceGroup := some igC1w }

def vnC1a : ValidationNode :=
  { Name := "cp1", Zone := "", Role := "control-plane", Hostname := "",
    Status := "True" }

def vnC1b : ValidationNode :=
  { Name := "cp2", Zone := "", Role := "control-plane", Hostname := "",
    Status := "True" }

def rOrd1 : ValidationCluster :=
  { Failures := [missC1 "cp2" "kube-apiserver",
      missC1 "cp2" "kube-controller-manager",
      missC1 "cp2" "kube-scheduler",
      missC1 "cp1" "kube-apiserver",
      missC1 "cp1" "kube-controller-manager",
      missC1 "cp1" "kube-scheduler"],
    Nodes := [vnC1a, vnC1b] }

def rOrd2 : ValidationCluster :=
  { Failures := [missC1 "cp1" "kube-scheduler",
      missC1 "cp1" "kube-apiserver",
      missC1 "cp1" "kube-controller-manager",
      missC1 "cp2" "kube-apiserver",
      missC1 "cp2" "kube-controller-manager",
      missC1 "cp2" "kube-scheduler"],
    Nodes := [vnC1a, vnC1b] }

theorem claim_C1_witness :
    List.Perm rOrd1.Failures rOrd2.Failures ∧
    ∃ dnsE groupE podE static1 static2,
      rOrd1.Failures = dnsE ++ groupE ++ podE ++ static1 ∧
      rOrd2.Failures = dnsE ++ groupE ++ podE ++ static2 ∧
      List.Perm static1 static2 ∧
      (∀ f ∈ dnsE, f.Kind = "dns") ∧
      (∀ f ∈ groupE, f.Kind = "InstanceGroup" ∨ f.Kind = "Machine" ∨
        f.Kind = "Node") ∧
      (∀ f ∈ podE, f.Kind = "Pod") ∧
      (∀ f ∈ static1, f.Kind = "Node") ∧
      (∀ f ∈ static2, f.Kind = "Node") :=
  claim_C1 vC1w inpC1w mwpC1 ordC1a ordC1b rOrd1 rOrd2 (by decide)
    ⟨mwpC1, List.Perm.refl _, by decide⟩
    ⟨cMidC1, by decide, by decide⟩
    (by decide) (by decide)


/-! ## Claim C2 -/

def igA2 : InstanceGroup := { name := "present", role := "Node" }

def igB2 : InstanceGroup := { name := "absent", role := "Node" }

def nodeA2 : Node :=
  { name := "n2", labels := [], addresses := ["10.0.0.2"],
    conditions := [{ condType := "Ready", status := "True" }] }

def memA2 : CloudInstance :=
  { ID := "i2", Status := "Ready", State := "", Node := some nodeA2 }

def cgA2 : CloudInstanceGroup :=
  { InstanceGroup := some igA2, Ready := [memA2], NeedUpdate := [],
    TargetSize := 1 }

def clusterC2 : Cluster :=
  { name := "c2", usesLegacyGossip := true, usesNoneDNS := false,
    externalDNS := none }

def vC2 : clusterValidatorImpl :=
  { cluster := clusterC2, allInstanceGroups := [igA2, igB2],
    filterInstanceGroups := fun _ => true,
    filterPodsForValidation := fun _ => true }

def inpC2 : ValidateInputs :=
  { resolvedHostAddrs := .ok [], nodeList := .ok [nodeA2],
    cloudGroups := .ok [cgA2], podStream := .ok [] }

def vnA2 : ValidationNode :=
  { Name := "n2", Zone := "", Role := "node", Hostname := "", Status := "True" }

def rC2 : ValidationCluster :=
  { Failures := [missingGroupError igB2], Nodes := [vnA2] }

/-- Claim C2, counterexample: an input on which every ObservedGroup
reaches its target size and every member has a ready recognized-role
node, yet the failure list is non-empty — a second in-scope DesiredGroup
has no ObservedGroup at all, so the missing-from-cloud-provider sweep
records an instance-group failure.  The claim as stated quantifies only
over the observed groups and so is false. -/
theorem claim_C2_counterexample :
    notDetachedCount (cgA2.Ready ++ cgA2.NeedUpdate) = 1 ∧
    cgA2.TargetSize = 1 ∧
    memA2.Node = some nodeA2 ∧ isNodeReady nodeA2 = true ∧
    effectiveRole igA2.role = "node" ∧
    Validate vC2 inpC2 = some (some rC2, none) ∧
    rC2.Failures ≠ [] := by decide

/-- Claim C2 (amended): the failure list of a completed run is empty
when, beyond the claim's own conditions — every ObservedGroup whose
DesiredGroup is in scope reaches its target size and every member has a
linked ready node of recognized role — the amendment forced by the
counterexample also holds: every in-scope DesiredGroup is matched by an
observed group, the pod stream contains no failing critical workloads,
and every ready control-plane node observes all three mandatory static
workloads. -/
theorem claim_C2 (v : clusterValidatorImpl) (inp : ValidateInputs)
    (gs : List CloudInstanceGroup) (nodes : List Node) (pods : List Pod)
    (hnl : inp.nodeList = .ok nodes)
    (hgs : inp.cloudGroups = .ok gs)
    (hps : inp.podStream = .ok pods)
    (hdns : v.cluster.usesLegacyGossip = false →
      v.cluster.usesNoneDNS = false →
      ∃ addrs, inp.resolvedHostAddrs = .ok addrs ∧
        hasPlaceHolderIP addrs = "")
    (hgroups : ∀ cg ∈ gs, ∃ ig, cg.InstanceGroup = some ig ∧
      (v.filterInstanceGroups ig = true →
        (effectiveRole ig.role = "control-plane" ∨
         effectiveRole ig.role = "apiserver" ∨
         effectiveRole ig.role = "node") ∧
        ¬((notDetachedCount (cg.Ready ++ cg.NeedUpdate) : Int) <
          cg.TargetSize) ∧
        ∀ m ∈ cg.Ready ++ cg.NeedUpdate, ∃ node, m.Node = some node ∧
          isNodeReady node = true))
    (hseen : ∀ ig ∈ v.allInstanceGroups, v.filterInstanceGroups ig = true →
      ∃ cg ∈ gs, ∃ g, cg.InstanceGroup = some g ∧
        v.filterInstanceGroups g = true ∧ g.name = ig.name)
    (hpods : ∀ pod ∈ pods, v.filterPodsForValidation pod = true →
      (pod.priorityClassName = "system-cluster-critical" ∨
       pod.priorityClassName = "system-node-critical") →
      pod.phase ≠ PodSucceeded →
      (pod.phase ≠ PodPending ∧ pod.phase ≠ PodUnknown ∧
       ∀ c ∈ pod.containerStatuses, c.ready = true))
    (hstatic : ∀ st, validateNodes {} gs v.allInstanceGroups
        v.filterInstanceGroups = some st →
      ∀ node ∈ st.readyNodes,
        (node.labels.lookup controlPlaneLabel).isSome = true →
        ∀ app ∈ masterStaticPods, ∃ pod ∈ pods,
          pod.ns = "kube-system" ∧ lookupLabel pod.labels "k8s-app" = app ∧
          (((buildPodMaps st.readyNodes).2).lookup pod.hostIP).getD "" =
            node.name) :
    ∃ r, Validate v inp = some (some r, none) ∧ r.Failures = [] := by
  have hall2 : ∀ cg ∈ gs, ∃ ig, cg.InstanceGroup = some ig ∧
      (v.filterInstanceGroups ig = true →
        (¬((notDetachedCount (cg.Ready ++ cg.NeedUpdate) : Int) <
            cg.TargetSize) ∧
         ∀ m ∈ cg.Ready ++ cg.NeedUpdate, ∃ node, m.Node = some node ∧
           isNodeReady node = true)) := by
    intro cg hcg
    obtain ⟨ig, hig, hcond⟩ := hgroups cg hcg
    exact ⟨ig, hig, fun hp => ⟨(hcond hp).2.1, (hcond hp).2.2⟩⟩
  obtain ⟨st1, hvn, hvnF⟩ := validateNodes_no_failure gs v.allInstanceGroups
    v.filterInstanceGroups hall2 hseen
  have hcollect : collectPodFailures st1.vc st1.readyNodes
      st1.nodeInstanceGroupMapping v.filterPodsForValidation pods =
      st1.vc :=
    collectPodFailures_no_failure st1.vc st1.readyNodes
      st1.nodeInstanceGroupMapping v.filterPodsForValidation pods hpods
      (hstatic st1 hvn)
  have hadc : validateAfterDNSCheck v inp {} = some (some st1.vc, none) := by
    unfold validateAfterDNSCheck
    rw [hnl, hgs]
    dsimp only
    rw [hvn]
    dsimp only
    rw [hps]
    dsimp only
    rw [hcollect]
  refine ⟨st1.vc, ?_, hvnF⟩
  simp only [Validate]
  cases hLG : v.cluster.usesLegacyGossip with
  | true =>
    simp only [Bool.not_true, Bool.false_and, Bool.false_eq_true,
      if_false]
    exact hadc
  | false =>
    cases hND : v.cluster.usesNoneDNS with
    | true =>
      simp only [Bool.not_true, Bool.not_false, Bool.true_and,
        Bool.false_eq_true, if_false]
      exact hadc
    | false =>
      obtain ⟨addrs, hra, hph⟩ := hdns hLG hND
      rw [hra]
      simp only [Bool.not_false, Bool.and_self, if_true]
      rw [hph]
      simp only [beq_self_eq_true, Bool.not_true, Bool.false_eq_true,
        if_false]
      exact hadc

def igW2 : InstanceGroup := { name := "w", role := "Node" }

def cgW2 : CloudInstanceGroup :=
  { InstanceGroup := some igW2, Ready := [], NeedUpdate := [],
    TargetSize := 0 }

def clusterW2 : Cluster :=
  { name := "w2", usesLegacyGossip := false, usesNoneDNS := false,
    externalDNS := none }

def vW2 : clusterValidatorImpl :=
  { cluster := clusterW2, allInstanceGroups := [igW2],
    filterInstanceGroups := fun _ => true,
    filterPodsForValidation := fun _ => true }

def inpW2 : ValidateInputs :=
  { resolvedHostAddrs := .ok ["192.0.2.7"], nodeList := .ok [],
    cloudGroups := .ok [cgW2], podStream := .ok [] }

def stW2 : VNState :=
  { vc := {}, groupsSeen := ["w"], readyNodes := [],
    nodeInstanceGroupMapping := [] }

theorem claim_C2_witness :
    ∃ r, Validate vW2 inpW2 = some (some r, none) ∧ r.Failures = [] :=
  claim_C2 vW2 inpW2 [cgW2] [] [] rfl rfl rfl
    (fun _ _ => ⟨["192.0.2.7"], rfl, by decide⟩)
    (by
      intro cg hcg
      simp only [List.mem_singleton] at hcg
      subst hcg
      refine ⟨igW2, rfl, fun _ => ⟨by decide, by decide, ?_⟩⟩
      intro m hm
      simp [cgW2] at hm)
    (by
      intro ig hig hp
      simp only [vW2, List.mem_singleton] at hig
      subst hig
      exact ⟨cgW2, List.mem_singleton.mpr rfl, igW2, rfl, rfl, rfl⟩)
    (fun pod hpod => absurd hpod (List.not_mem_nil pod))
    (by
      intro st hst
      rw [show validateNodes {} [cgW2] vW2.allInstanceGroups
        vW2.filterInstanceGroups = some stW2 from by decide] at hst
      injection hst with hst
      subst hst
      intro node hn
      simp [stW2] at hn)

end Validation
